import Mathlib

/-!
Verification of the requirement-to-meter compliance matching pipeline
(Compliance-Automation repository): a shallow embedding, in Lean 4, of the
deterministic core of the Python sources, together with theorems settling
the specification's testable properties.

Conventions of the embedding:
* Python strings are `List Char` (`Str`); only ASCII case mapping is needed.
* Python `float` arithmetic is modelled by exact rationals (`ℚ`).  The
  numeric tokens the code compares are short decimal literals, for which
  the float comparison agrees with the exact one.
* Python dictionaries with a known key set are structures; a key that may
  be absent is an `Option` field, and `dict.get(k, default)` is a getter
  with that default.
* A Python code path that raises an exception which the callers catch is
  modelled by `Option`/`none` at the function boundary that corresponds to
  the `try:` block in the source.
* The nondeterministic reasoning-service call (`ollama.chat`) is an
  explicit oracle parameter; `none` models an exception during the call.
-/

namespace ComplianceAutomation

/-- Python strings, as lists of characters. -/
abbrev Str := List Char

/-- Literal helper: a Lean string literal, as a `Str`. -/
def strLit (s : String) : Str := s.data

/-- ASCII lower-casing of one character (Python `str.lower` on the ASCII
range; other characters such as `±` are unchanged). -/
def lowerChar (c : Char) : Char :=
  if 'A' ≤ c ∧ c ≤ 'Z' then Char.ofNat (c.toNat + 32) else c

/-- Python `str.lower()`. -/
def lowerStr (s : Str) : Str := s.map lowerChar

/-- Python regex `\s` / `str.strip()` whitespace (ASCII). -/
def isWs (c : Char) : Bool :=
  c = ' ' || c = '\t' || c = '\n' || c = '\x0d' || c = '\x0b' || c = '\x0c'

/-- ASCII decimal digit. -/
def isDigitCh (c : Char) : Bool := '0' ≤ c && c ≤ '9'

/-- ASCII letter. -/
def isAlphaCh (c : Char) : Bool :=
  ('a' ≤ c && c ≤ 'z') || ('A' ≤ c && c ≤ 'Z')

/-- Regex `\w` class: letter, digit or underscore (ASCII). -/
def isWordCh (c : Char) : Bool := isAlphaCh c || isDigitCh c || c = '_'

/-- Python `needle in hay` substring test. -/
def isSubstr (needle : Str) : Str → Bool
  | [] => needle.isEmpty
  | c :: rest => needle.isPrefixOf (c :: rest) || isSubstr needle rest

/-- Python `str.strip()`. -/
def stripStr (s : Str) : Str :=
  (s.dropWhile isWs).reverse.dropWhile isWs |>.reverse

/-- Python `str.split('\n')`. -/
def splitLines (s : Str) : List Str :=
  s.splitOn '\n'

/-- First-occurrence deduplication.  Embeds both `_safe_remove_duplicates`
(which keeps the first occurrence of each string) and, up to element
order, `list(set(...))` (whose order Python leaves unspecified; no claim
depends on the order of the deduplicated lists). -/
def dedupFirstAux {α : Type} [DecidableEq α] (seen : List α) : List α → List α
  | [] => []
  | x :: xs =>
    if x ∈ seen then dedupFirstAux seen xs else x :: dedupFirstAux (x :: seen) xs

/-- `_safe_remove_duplicates(items)` from `old/comparison.py`: every item
here is a (hashable) string, so the `set` membership path is always taken
and the first occurrence of each string survives in order. -/
def dedupFirst {α : Type} [DecidableEq α] (l : List α) : List α :=
  dedupFirstAux [] l

/-- Value of a digit string, most significant first. -/
def digitsVal (ds : Str) : ℕ :=
  ds.foldl (fun a c => a * 10 + (c.toNat - 48)) 0

/-- A non-negative decimal value `num / 10^scale`, exactly as written in a
numeric token.  Python's `float` values are modelled by these exact
decimals (the tokens compared by the code are short decimal literals, on
which float comparison agrees with the exact comparison). -/
structure DecVal where
  num : ℕ
  scale : ℕ
deriving DecidableEq

/-- The rational value of a `DecVal`. -/
def DecVal.toRat (v : DecVal) : ℚ := (v.num : ℚ) / (10 ^ v.scale : ℚ)

/-- Comparison of two decimal values by cross-multiplication (kernel
computable); `valLE_iff` below shows it is the comparison of the values. -/
def valLE (a b : DecVal) : Bool :=
  a.num * 10 ^ b.scale ≤ b.num * 10 ^ a.scale

/-- Python `float(s)` restricted to the strings the compliance code ever
feeds it: runs over `[0-9.]`.  `none` models the `ValueError` raised on
runs such as `"1.2.3"` or `"."` that are not numerals. -/
def parseDec? (s : Str) : Option DecVal :=
  if s.all (fun c => isDigitCh c || c = '.')
      ∧ s.any isDigitCh
      ∧ (s.filter (fun c => c = '.')).length ≤ 1 then
    let ip := s.takeWhile (fun c => c ≠ '.')
    let fp := (s.dropWhile (fun c => c ≠ '.')).drop 1
    some ⟨digitsVal ip * 10 ^ fp.length + digitsVal fp, fp.length⟩
  else none

/-- Drop trailing decimal zeros: `(50, 2)` (i.e. `0.50`) becomes `(5, 1)`
(i.e. `0.5`), the canonical form `str(float)` prints. -/
def canonVal : ℕ → DecVal → DecVal
  | 0, v => v
  | fuel + 1, v =>
    if v.scale ≠ 0 ∧ v.num % 10 = 0 then canonVal fuel ⟨v.num / 10, v.scale - 1⟩ else v

/-- Python `str(float)`/f-string rendering of the non-negative decimal
values handled by the correction pass: shortest decimal expansion, with a
trailing `.0` for integers (`0.2 → "0.2"`, `5 → "5.0"`), matching CPython's
repr on the short decimal literals that occur in accuracy tokens. -/
def valRepr (v : DecVal) : Str :=
  let c := canonVal v.scale v
  let ds := Nat.toDigits 10 c.num
  if c.scale = 0 then ds ++ strLit ".0"
  else
    let padded := List.replicate (c.scale + 1 - ds.length) '0' ++ ds
    padded.take (padded.length - c.scale) ++ strLit "." ++ padded.drop (padded.length - c.scale)

/-!
## Accuracy-token extraction (`re.search` calls of the correction pass)

`_post_process_compliance_logic` (old/comparison.py:1072, modular/analysis.py:319)
uses two regexes on lower-cased text:

* `class\s*([\d\.]+)\s*s?` — an accuracy-class token;
* `±?(\d+\.?\d*)\s*%`      — a percentage-accuracy token.

Both are implemented below with Python's leftmost-match semantics.  For
these patterns backtracking never changes the outcome (the tail of each
pattern can only match the one concrete character it names), so maximal
munch at the leftmost feasible start position is exact.
-/

/-- Try to match `class\s*([\d\.]+)\s*s?` at the start of `s`; returns
`(whole match, captured group)`. -/
def classAt? (s : Str) : Option (Str × Str) :=
  if (strLit "class").isPrefixOf s then
    let rest := s.drop 5
    let ws1 := rest.takeWhile isWs
    let r2 := rest.drop ws1.length
    let grp := r2.takeWhile (fun c => isDigitCh c || c = '.')
    if grp.isEmpty then none
    else
      let r3 := r2.drop grp.length
      let ws2 := r3.takeWhile isWs
      let r4 := r3.drop ws2.length
      let sfx := if r4.head? = some 's' then strLit "s" else []
      some (strLit "class" ++ ws1 ++ grp ++ ws2 ++ sfx, grp)
  else none

/-- `re.search(r'class\s*([\d\.]+)\s*s?', s)`. -/
def searchClass : Str → Option (Str × Str)
  | [] => none
  | c :: rest =>
    match classAt? (c :: rest) with
    | some r => some r
    | none => searchClass rest

/-- Try to match `±?(\d+\.?\d*)\s*%` at the start of `s`; returns the
numeric value of the captured group (whose shape `\d+(\.\d*)?` always
parses as a float). -/
def pctAt? (s : Str) : Option DecVal :=
  let s1 := if s.head? = some '±' then s.drop 1 else s
  let ip := s1.takeWhile isDigitCh
  if ip.isEmpty then none
  else
    let r2 := s1.drop ip.length
    let fp := if r2.head? = some '.' then (r2.drop 1).takeWhile isDigitCh else []
    let r3 := if r2.head? = some '.' then r2.drop (1 + fp.length) else r2
    let r4 := r3.dropWhile isWs
    if r4.head? = some '%' then
      some ⟨digitsVal ip * 10 ^ fp.length + digitsVal fp, fp.length⟩
    else none

/-- `re.search(r'±?(\d+\.?\d*)\s*%', s)`, returning the group's value. -/
def searchPct : Str → Option DecVal
  | [] => none
  | c :: rest =>
    match pctAt? (c :: rest) with
    | some v => some v
    | none => searchPct rest

/-!
## Compliance items and reports
-/

/-- One entry of `compliance_analysis`: a Python dict whose four known keys
may each be absent (manual extraction can produce partial items). -/
structure CItem where
  requirement : Option Str
  spec_value : Option Str
  complies : Option Bool
  justification : Option Str
deriving DecidableEq, Inhabited

/-- `item.get("requirement", "")`. -/
def CItem.reqGet (it : CItem) : Str := it.requirement.getD []

/-- `item.get("spec_value", "")`. -/
def CItem.specGet (it : CItem) : Str := it.spec_value.getD []

/-- `item.get("complies", False)`. -/
def CItem.compliesGet (it : CItem) : Bool := it.complies.getD false

/-- `item.get("justification", "")`. -/
def CItem.justGet (it : CItem) : Str := it.justification.getD []

/-- A compliance report (`ComplianceReport` of the spec): the dict shape
built by the comparator, with the `get` defaults of the source absorbed
into plain fields. -/
structure CResult where
  compliance_analysis : List CItem
  overall_compliance : Bool
  areas_exceeding_requirements : List Str
  potential_issues : List Str
deriving DecidableEq

/-- Number of items with `complies == True`
(`sum(1 for item in analysis_items if item.get("complies", False))`). -/
def compliantCount (items : List CItem) : ℕ :=
  (items.filter (fun it => it.compliesGet = true)).length

/-- `(compliant / total) >= 0.8 if total else False` — the 0.8 overall
compliance threshold, by cross-multiplication (`overallThreshold_iff`
shows it is the rational comparison the source writes). -/
def overallThreshold (items : List CItem) : Bool :=
  if items.length = 0 then false
  else decide (4 * items.length ≤ 5 * compliantCount items)

/-!
## The deterministic post-processing correction pass

`_post_process_compliance_logic(result, original_requirements)` —
textually identical in `old/comparison.py:1072` and
`modular/analysis.py:319` (the `original_requirements` argument is unused
by the body).  Per item three corrections can each fire independently:
accuracy class, percentage accuracy, and superiority phrases in the
justification.  Each firing increments `corrected_count`, appends one
`"req (spec)"` string, sets `complies = True` and rewrites the
justification.
-/

/-- Apply one correction to the running `(item, count, areas)` state:
`item["complies"] = True`, overwrite the justification, count it, record
the exceeding area. -/
def fireCorrection (j : Str) (area : Str) (st : CItem × ℕ × List Str) :
    CItem × ℕ × List Str :=
  ({ st.1 with complies := some true, justification := some j },
    st.2.1 + 1, st.2.2 ++ [area])

/-- Justification written by the accuracy-class correction. -/
def classJust (rw sw : Str) : Str :=
  strLit "CORRECTED: Meter class " ++ sw ++ strLit " is better than required " ++
    rw ++ strLit " (smaller class number = higher accuracy)."

/-- Justification written by the percentage-accuracy correction. -/
def pctJust (rv sv : DecVal) : Str :=
  strLit "CORRECTED: Meter accuracy ±" ++ valRepr sv ++ strLit "% is better than required ±" ++
    valRepr rv ++ strLit "% (smaller percentage = higher accuracy)."

/-- The accuracy-class correction.  `none` models the uncaught
`ValueError` when a matched `[\d\.]+` group (e.g. `"1.2.3"`) is not a
float literal; it aborts the whole pass. -/
def classPass (req spec : Str) (orig : Bool) (area : Str)
    (st : CItem × ℕ × List Str) : Option (CItem × ℕ × List Str) :=
  match searchClass req, searchClass spec with
  | some (rw, _rg), some (sw, _sg) =>
    match parseDec? _rg, parseDec? _sg with
    | some rv, some sv =>
      if valLE sv rv ∧ orig = false then some (fireCorrection (classJust rw sw) area st)
      else some st
    | _, _ => none
  | _, _ => some st

/-- The percentage-accuracy correction (its group always parses, so it
never raises). -/
def pctPass (req spec : Str) (orig : Bool) (area : Str)
    (st : CItem × ℕ × List Str) : Option (CItem × ℕ × List Str) :=
  match searchPct req, searchPct spec with
  | some rv, some sv =>
    if valLE sv rv ∧ orig = false then some (fireCorrection (pctJust rv sv) area st)
    else some st
  | _, _ => some st

/-- The five superiority phrases of the justification-phrase correction. -/
def hasSuperiorityPhrase (j : Str) : Bool :=
  isSubstr (strLit "more stringent than") j ||
  isSubstr (strLit "exceeds requirement") j ||
  isSubstr (strLit "better than") j ||
  isSubstr (strLit "higher accuracy") j ||
  isSubstr (strLit "surpasses") j

/-- The justification-phrase correction.  It reads the phrases from the
item's original (lower-cased) justification but rewraps the item's
current justification (`item['justification']`, a plain index — `none`
models the `KeyError` on a missing key, which is in fact unreachable
because firing requires a non-empty original justification). -/
def phrasePass (just : Str) (orig : Bool) (area : Str)
    (st : CItem × ℕ × List Str) : Option (CItem × ℕ × List Str) :=
  if hasSuperiorityPhrase just ∧ orig = false then
    match st.1.justification with
    | some j =>
      some (fireCorrection (strLit "CORRECTED: " ++ j ++ strLit " (meter exceeds requirement)") area st)
    | none => none
  else some st

/-- `f"{item.get('requirement','')} ({item.get('spec_value','')})"`, the
string appended to `exceeding_areas` by each correction. -/
def itemArea (it : CItem) : Str :=
  it.reqGet ++ strLit " (" ++ it.specGet ++ strLit ")"

/-- The per-item body of the correction loop.  The loop computes `req`,
`spec`, `justification` and `original_complies` once from the item before
any correction fires, so every pass below reads them from the original
item `it`, not from the partially corrected state. -/
def processItem (it : CItem) : Option (CItem × ℕ × List Str) :=
  match classPass (lowerStr it.reqGet) (lowerStr it.specGet) it.compliesGet
      (itemArea it) (it, 0, []) with
  | none => none
  | some st1 =>
    match pctPass (lowerStr it.reqGet) (lowerStr it.specGet) it.compliesGet
        (itemArea it) st1 with
    | none => none
    | some st2 => phrasePass (lowerStr it.justGet) it.compliesGet (itemArea it) st2

/-- The correction loop over all items. -/
def processItems : List CItem → Option (List (CItem × ℕ × List Str))
  | [] => some []
  | it :: rest =>
    match processItem it, processItems rest with
    | some o, some os => some (o :: os)
    | _, _ => none

/-- `corrected_count`: the total number of corrections fired by the loop. -/
def countSum (outs : List (CItem × ℕ × List Str)) : ℕ :=
  (outs.map (fun o => o.2.1)).foldr (· + ·) 0

def assembleResult (r : CResult) (outs : List (CItem × ℕ × List Str)) : CResult :=
  if 0 < countSum outs then
    { compliance_analysis := outs.map (fun o => o.1),
      overall_compliance := overallThreshold (outs.map (fun o => o.1)),
      areas_exceeding_requirements :=
        dedupFirst (r.areas_exceeding_requirements ++ (outs.map (fun o => o.2.2)).flatten),
      potential_issues := r.potential_issues }
  else
    { r with compliance_analysis := outs.map (fun o => o.1) }

/-- `_post_process_compliance_logic` proper: run the loop, then assemble. -/
def post_process_compliance_logic (r : CResult) : Option CResult :=
  (processItems r.compliance_analysis).map (assembleResult r)

/-- `corrected_count` as computed by the pass (0 when the pass aborts). -/
def correctedCount (r : CResult) : ℕ :=
  match processItems r.compliance_analysis with
  | some outs => countSum outs
  | none => 0

/-!
## The comparator entry point (`_compare_requirements_with_specs`)

`old/comparison.py:259`: empty inputs return an `{"error": ...}` dict;
more than `MAX_REQUIREMENTS_PER_CHUNK = 10` requirements are processed by
`_compare_requirements_chunked` (`old/comparison.py:381`); otherwise one
reasoning call is made, its output parsed and post-processed.

The reasoning call together with `_extract_and_repair_json` is abstracted
as an oracle `List Str → Option CResult` from the requirement chunk to the
parsed report (`none` models an exception raised by `ollama.chat`; the
JSON extraction itself never raises, it always returns some dict).
-/

/-- `[requirements[i:i+chunk_size] for i in range(0, len(requirements),
chunk_size)]`.  (Python raises for a zero step; the source only uses
`chunk_size = 10`.) -/
def chunksOfAux {α : Type} (n : ℕ) : ℕ → List α → List (List α)
  | 0, _ => []
  | fuel + 1, l =>
    if l.isEmpty = true ∨ n = 0 then []
    else l.take n :: chunksOfAux n fuel (l.drop n)

/-- The slicing loop, with `l.length` steps of fuel (each step consumes at
least one element, so the fuel is never exhausted for `0 < n`). -/
def chunksOf {α : Type} (n : ℕ) (l : List α) : List (List α) :=
  chunksOfAux n l.length l

/-- Result of the comparator: either an explicit error record (a dict
carrying an `error` key with the reason) or a report. -/
inductive CompareOutcome
  | err (msg : Str)
  | ok (r : CResult)
deriving DecidableEq

/-- `_compare_requirements_chunked` (old/comparison.py:381): process each
chunk with its own reasoning call, skip chunks whose result has an
`error` key, concatenate the per-chunk `compliance_analysis` lists in
chunk order, recompute `overall_compliance` over the concatenation with
the 0.8 threshold, and deduplicate the combined areas and issues. -/
def compare_requirements_chunked (oracle : List Str → Option CResult)
    (requirements : List Str) (chunk_size : ℕ) : CResult :=
  let results := (chunksOf chunk_size requirements).filterMap oracle
  let allItems := (results.map (fun cr => cr.compliance_analysis)).flatten
  { compliance_analysis := allItems,
    overall_compliance := overallThreshold allItems,
    areas_exceeding_requirements :=
      dedupFirst (results.map (fun cr => cr.areas_exceeding_requirements)).flatten,
    potential_issues :=
      dedupFirst (results.map (fun cr => cr.potential_issues)).flatten }

/-- `_compare_requirements_with_specs` (old/comparison.py:259).  The error
messages of the exception paths carry variable exception text in the
source (`f"AI comparison failed: {str(e)}"`); only the constant part is
kept here. -/
def compare_requirements_with_specs (oracle : List Str → Option CResult)
    (requirements : List Str) (meter_specs : List (Str × Str))
    (model_number : Str) : CompareOutcome :=
  if requirements.isEmpty then .err (strLit "No requirements to analyze")
  else if meter_specs.isEmpty then
    .err (strLit "No specifications found for " ++ model_number)
  else if 10 < requirements.length then
    .ok (compare_requirements_chunked oracle requirements 10)
  else
    match oracle requirements with
    | none => .err (strLit "AI comparison failed")
    | some raw =>
      match post_process_compliance_logic raw with
      | none => .err (strLit "AI comparison failed")
      | some r => .ok r

/-!
## Robust JSON extraction (`_extract_and_repair_json`)

Textually identical in `old/comparison.py:969` and
`modular/analysis.py:215`.  `json.loads` is modelled by `jsonParse` on the
JSON subset the comparator exchanges: objects, arrays, escape-free
strings, `-?digits[.digits]` numbers, `true`/`false`/`null`, with
whitespace and a full-consumption check.  (Python additionally accepts
string escapes and exponent numbers and rejects leading zeros; none of
these occur in the inputs the theorems below evaluate.)
-/

/-- JSON whitespace (`' \t\n\r'`). -/
def jsWs (c : Char) : Bool := c = ' ' || c = '\t' || c = '\n' || c = '\x0d'

/-- A JSON value; numbers are signed exact decimals. -/
inductive JValue
  | jnull
  | jbool (b : Bool)
  | jnum (neg : Bool) (v : DecVal)
  | jstr (s : Str)
  | jarr (xs : List JValue)
  | jobj (fields : List (Str × JValue))

/-- A string body up to the closing quote (escapes and control characters
are rejected, as strict `json.loads` does for the latter). -/
def parseJStr (s : Str) : Option (Str × Str) :=
  let body := s.takeWhile (fun c => c ≠ '"')
  if body.all (fun c => c ≠ '\\' ∧ ' ' ≤ c) then
    match s.drop body.length with
    | '"' :: rest => some (body, rest)
    | _ => none
  else none

/-- `-?\d+(\.\d+)?`. -/
def parseJNum (s : Str) : Option (JValue × Str) :=
  let neg := s.head? = some '-'
  let s1 := if neg then s.drop 1 else s
  let ip := s1.takeWhile isDigitCh
  if ip.isEmpty then none
  else
    let r := s1.drop ip.length
    match r with
    | '.' :: r1 =>
      let fp := r1.takeWhile isDigitCh
      if fp.isEmpty then none
      else
        some (.jnum neg ⟨digitsVal ip * 10 ^ fp.length + digitsVal fp, fp.length⟩,
          r1.drop fp.length)
    | _ => some (.jnum neg ⟨digitsVal ip, 0⟩, r)

mutual

/-- One JSON value (leading whitespace skipped), returning the remainder. -/
def parseJVal : ℕ → Str → Option (JValue × Str)
  | 0, _ => none
  | fuel + 1, s =>
    let s1 := s.dropWhile jsWs
    match s1 with
    | [] => none
    | '"' :: rest =>
      (parseJStr rest).map (fun p => (.jstr p.1, p.2))
    | '\x7b' :: rest =>
      let r := rest.dropWhile jsWs
      match r with
      | '\x7d' :: r2 => some (.jobj [], r2)
      | _ => (parseJObj fuel rest).map (fun p => (.jobj p.1, p.2))
    | '[' :: rest =>
      let r := rest.dropWhile jsWs
      match r with
      | ']' :: r2 => some (.jarr [], r2)
      | _ => (parseJArr fuel rest).map (fun p => (.jarr p.1, p.2))
    | c :: rest =>
      if (strLit "null").isPrefixOf (c :: rest) then some (.jnull, (c :: rest).drop 4)
      else if (strLit "true").isPrefixOf (c :: rest) then
        some (.jbool true, (c :: rest).drop 4)
      else if (strLit "false").isPrefixOf (c :: rest) then
        some (.jbool false, (c :: rest).drop 5)
      else if c = '-' ∨ isDigitCh c then parseJNum (c :: rest)
      else none

/-- Object members (after the opening brace), through the closing brace. -/
def parseJObj : ℕ → Str → Option (List (Str × JValue) × Str)
  | 0, _ => none
  | fuel + 1, s =>
    let s1 := s.dropWhile jsWs
    match s1 with
    | '"' :: rest =>
      match parseJStr rest with
      | none => none
      | some (key, r1) =>
        match r1.dropWhile jsWs with
        | ':' :: r2 =>
          match parseJVal fuel r2 with
          | none => none
          | some (v, r3) =>
            match r3.dropWhile jsWs with
            | ',' :: r4 =>
              (parseJObj fuel r4).map (fun p => ((key, v) :: p.1, p.2))
            | '\x7d' :: r4 => some ([(key, v)], r4)
            | _ => none
        | _ => none
    | _ => none

/-- Array items (after the opening bracket), through the closing bracket. -/
def parseJArr : ℕ → Str → Option (List JValue × Str)
  | 0, _ => none
  | fuel + 1, s =>
    match parseJVal fuel s with
    | none => none
    | some (v, r) =>
      match r.dropWhile jsWs with
      | ',' :: r2 => (parseJArr fuel r2).map (fun p => (v :: p.1, p.2))
      | ']' :: r2 => some ([v], r2)
      | _ => none

end

/-- `json.loads(t)` on the modelled subset: one value, nothing but
whitespace after it. -/
def jsonParse (t : Str) : Option JValue :=
  match parseJVal (t.length + 1) t with
  | some (v, rem) => if (rem.dropWhile jsWs).isEmpty then some v else none
  | none => none

/-- The body of one `\{(?:[^{}]|(?:\{[^{}]*\}))*\}` match after its
opening brace: a run of non-brace characters and depth-1 sub-blocks, then
the closing brace.  For this pattern backtracking never changes the
outcome, so the scan is deterministic. -/
def braceInner : ℕ → Str → Option (Str × Str)
  | 0, _ => none
  | fuel + 1, s =>
    match s with
    | [] => none
    | '\x7d' :: rest => some (strLit "\x7d", rest)
    | '\x7b' :: rest =>
      let inner := rest.takeWhile (fun c => c ≠ '\x7b' ∧ c ≠ '\x7d')
      match rest.drop inner.length with
      | '\x7d' :: r3 =>
        (braceInner fuel r3).map (fun p =>
          ('\x7b' :: inner ++ '\x7d' :: p.1, p.2))
      | _ => none
    | c :: rest =>
      (braceInner fuel rest).map (fun p => (c :: p.1, p.2))

/-- A whole-pattern match starting exactly here. -/
def braceBlockAt (s : Str) : Option (Str × Str) :=
  match s with
  | '\x7b' :: rest =>
    (braceInner (rest.length + 1) rest).map (fun p => ('\x7b' :: p.1, p.2))
  | _ => none

/-- `json_pattern.findall(text)`: leftmost non-overlapping matches. -/
def findBraceBlocks : ℕ → Str → List Str
  | 0, _ => []
  | fuel + 1, s =>
    match s with
    | [] => []
    | c :: rest =>
      match braceBlockAt (c :: rest) with
      | some (m, rem) => m :: findBraceBlocks fuel rem
      | none => findBraceBlocks fuel rest

/-- Stable insertion for `matches.sort(key=len, reverse=True)`. -/
def insertLenDesc (x : Str) : List Str → List Str
  | [] => [x]
  | y :: ys => if y.length ≤ x.length then x :: y :: ys else y :: insertLenDesc x ys

def sortLenDesc (l : List Str) : List Str := l.foldr insertLenDesc []

/-- Attempt stage: brace blocks, longest first, first one that parses. -/
def stageRegex (t : Str) : Option JValue :=
  (sortLenDesc (findBraceBlocks t.length t)).findSome? jsonParse

/-- `text[text.find('{') : text.rfind('}')+1]` (each slice only applied
when the character occurs). -/
def sliceBraces (t : Str) : Str :=
  let t1 := if t.any (fun c => c = '\x7b') then t.dropWhile (fun c => c ≠ '\x7b') else t
  if t1.any (fun c => c = '\x7d') then
    (t1.reverse.dropWhile (fun c => c ≠ '\x7d')).reverse
  else t1

/-- `([{,]\s*)([a-zA-Z_][a-zA-Z0-9_]*)\s*:` → `\1"\2":` at this position. -/
def keyMatchAt (s : Str) : Option (Str × Str) :=
  match s with
  | c :: rest =>
    if c = '\x7b' ∨ c = ',' then
      let ws := rest.takeWhile isWs
      match rest.drop ws.length with
      | i0 :: ir =>
        if isAlphaCh i0 || i0 = '_' then
          let idTail := ir.takeWhile isWordCh
          let r2 := ir.drop idTail.length
          let ws2 := r2.takeWhile isWs
          match r2.drop ws2.length with
          | ':' :: r3 =>
            some (c :: ws ++ '"' :: (i0 :: idTail) ++ strLit "\":", r3)
          | _ => none
        else none
      | [] => none
    else none
  | [] => none

/-- `'([^']*)'` → `"\1"` at this position. -/
def quoteMatchAt (s : Str) : Option (Str × Str) :=
  match s with
  | '\x27' :: rest =>
    let body := rest.takeWhile (fun c => c ≠ '\x27')
    match rest.drop body.length with
    | '\x27' :: r2 => some ('"' :: body ++ strLit "\"", r2)
    | _ => none
  | _ => none

/-- `:\s*True\b` → `: true` at this position. -/
def trueMatchAt (s : Str) : Option (Str × Str) :=
  match s with
  | ':' :: rest =>
    let ws := rest.takeWhile isWs
    let r := rest.drop ws.length
    if (strLit "True").isPrefixOf r then
      let r2 := r.drop 4
      if (match r2.head? with | some c => !(isWordCh c) | none => true) = true then
        some (strLit ": true", r2)
      else none
    else none
  | _ => none

/-- `:\s*False\b` → `: false` at this position. -/
def falseMatchAt (s : Str) : Option (Str × Str) :=
  match s with
  | ':' :: rest =>
    let ws := rest.takeWhile isWs
    let r := rest.drop ws.length
    if (strLit "False").isPrefixOf r then
      let r2 := r.drop 5
      if (match r2.head? with | some c => !(isWordCh c) | none => true) = true then
        some (strLit ": false", r2)
      else none
    else none
  | _ => none

/-- `,\s*X` → `X` (for `X` one of `}`, `]`) at this position. -/
def commaCloseMatchAt (close : Char) (s : Str) : Option (Str × Str) :=
  match s with
  | ',' :: rest =>
    let ws := rest.takeWhile isWs
    match rest.drop ws.length with
    | c :: r2 => if c = close then some ([close], r2) else none
    | [] => none
  | _ => none

/-- `re.sub` driver: scan left to right, replace non-overlapping matches,
continue after each replacement. -/
def subScan (matchAt : Str → Option (Str × Str)) : ℕ → Str → Str
  | 0, s => s
  | fuel + 1, s =>
    match s with
    | [] => []
    | c :: rest =>
      match matchAt (c :: rest) with
      | some (repl, rem) => repl ++ subScan matchAt fuel rem
      | none => c :: subScan matchAt fuel rest

/-- The aggressive-cleanup stage: slice to the outermost braces, quote
unquoted keys, turn single into double quotes, normalize `True`/`False`,
strip trailing commas, then reparse. -/
def stageCleanup (t : Str) : Option JValue :=
  let c0 := sliceBraces t
  let c1 := subScan keyMatchAt c0.length c0
  let c2 := subScan quoteMatchAt c1.length c1
  let c3 := subScan trueMatchAt c2.length c2
  let c4 := subScan falseMatchAt c3.length c3
  let c5 := subScan (commaCloseMatchAt '\x7d') c4.length c4
  let c6 := subScan (commaCloseMatchAt ']') c5.length c5
  jsonParse c6

/-- `"compliance_analysis"\s*:\s*\[(.*?)\]` at this position (the
non-greedy group runs to the first `]`). -/
def caMatchAt (s : Str) : Option Str :=
  if (strLit "\"compliance_analysis\"").isPrefixOf s then
    let r := (s.drop 21).dropWhile isWs
    match r with
    | ':' :: r1 =>
      match r1.dropWhile isWs with
      | '[' :: r2 =>
        let body := r2.takeWhile (fun c => c ≠ ']')
        match r2.drop body.length with
        | ']' :: _ => some body
        | _ => none
      | _ => none
    | _ => none
  else none

def searchCA : Str → Option Str
  | [] => none
  | c :: rest =>
    match caMatchAt (c :: rest) with
    | some g => some g
    | none => searchCA rest

/-- `\{(.*?)\}` findall (non-greedy): item bodies between brace pairs. -/
def itemBlocks : ℕ → Str → List Str
  | 0, _ => []
  | fuel + 1, s =>
    match s with
    | [] => []
    | c :: rest =>
      if c = '\x7b' then
        let body := rest.takeWhile (fun x => x ≠ '\x7d')
        match rest.drop body.length with
        | _ :: r2 => body :: itemBlocks fuel r2
        | [] => []
      else itemBlocks fuel rest

/-- `"<key>"\s*:\s*"([^"]*)"` at this position (`key` carries its own
quotes). -/
def fieldMatchAt (key : Str) (s : Str) : Option Str :=
  if key.isPrefixOf s then
    match (s.drop key.length).dropWhile isWs with
    | ':' :: r1 =>
      match r1.dropWhile isWs with
      | '"' :: r2 =>
        let body := r2.takeWhile (fun c => c ≠ '"')
        match r2.drop body.length with
        | '"' :: _ => some body
        | _ => none
      | _ => none
    | _ => none
  else none

def searchField (key : Str) : Str → Option Str
  | [] => none
  | c :: rest =>
    match fieldMatchAt key (c :: rest) with
    | some g => some g
    | none => searchField key rest

/-- `"complies"\s*:\s*(true|false)` at this position (on lowered text). -/
def compliesMatchAt (s : Str) : Option Bool :=
  if (strLit "\"complies\"").isPrefixOf s then
    match (s.drop 10).dropWhile isWs with
    | ':' :: r1 =>
      let r2 := r1.dropWhile isWs
      if (strLit "true").isPrefixOf r2 then some true
      else if (strLit "false").isPrefixOf r2 then some false
      else none
    | _ => none
  else none

def searchComplies : Str → Option Bool
  | [] => none
  | c :: rest =>
    match compliesMatchAt (c :: rest) with
    | some b => some b
    | none => searchComplies rest

/-- Manual field-by-field recovery of one item; kept only when a
`requirement` was found. -/
def manualItem (item_text : Str) : Option CItem :=
  match searchField (strLit "\"requirement\"") item_text with
  | none => none
  | some _ =>
    some { requirement := searchField (strLit "\"requirement\"") item_text,
           spec_value := searchField (strLit "\"spec_value\"") item_text,
           complies := searchComplies (lowerStr item_text),
           justification := searchField (strLit "\"justification\"") item_text }

/-- A recovered item rendered back as the JSON object the Python dict is
(keys in insertion order, absent keys omitted). -/
def itemToJ (it : CItem) : JValue :=
  .jobj ((match it.requirement with
          | some r => [(strLit "requirement", JValue.jstr r)]
          | none => []) ++
         (match it.spec_value with
          | some v => [(strLit "spec_value", JValue.jstr v)]
          | none => []) ++
         (match it.complies with
          | some b => [(strLit "complies", JValue.jbool b)]
          | none => []) ++
         (match it.justification with
          | some j => [(strLit "justification", JValue.jstr j)]
          | none => []))

/-- The manual-extraction stage: succeeds only when at least one item was
recovered (otherwise the Python code falls through to the fallback). -/
def stageManualJ (t : Str) : Option JValue :=
  match searchCA t with
  | none => none
  | some body =>
    let items := (itemBlocks body.length body).filterMap manualItem
    if items.isEmpty then none
    else some (.jobj
      [(strLit "compliance_analysis", .jarr (items.map itemToJ)),
       (strLit "overall_compliance", .jbool false)])

/-- The synthetic final fallback response. -/
def fallbackJ : JValue :=
  .jobj [(strLit "compliance_analysis", .jarr []),
         (strLit "overall_compliance", .jbool false),
         (strLit "areas_exceeding_requirements", .jarr []),
         (strLit "potential_issues", .jarr
           [JValue.jstr (strLit "Could not parse AI response due to JSON formatting errors")])]

/-- `_extract_and_repair_json(text)`: the stages in source order.  Note
the cascade opens with the brace-block regex — there is no initial
`json.loads` of the whole response. -/
def extract_and_repair_json (t : Str) : JValue :=
  match stageRegex t with
  | some v => v
  | none =>
    match stageCleanup t with
    | some v => v
    | none =>
      match stageManualJ t with
      | some v => v
      | none => fallbackJ

/-- Dict key lookup on a JSON object (first occurrence). -/
def jLookup (v : JValue) (key : Str) : Option JValue :=
  match v with
  | .jobj fields => (fields.find? (fun p => p.1 == key)).map (fun p => p.2)
  | _ => none

/-!
## The Specification Store Adapter (`_find_meter_specs`, comparison.py:93)

The knowledge base is a JSON document keyed by series name; each series
holds `model`, `summary`, `performance_and_accuracy`,
`technical_specifications` and a `model_breakdown` list of variants (a
missing `model_breakdown` key behaves exactly like an empty list, so it is
collapsed into one).  The function returns one of three dict shapes: the
built variant-specs dict, the raw series dict, or `{}`.
-/

structure KbVariant where
  model_name : Str
  key_differentiator : Str
deriving DecidableEq

structure SeriesData where
  model : Str
  summary : Str
  performance_and_accuracy : List Str
  technical_specifications : List (Str × Str)
  model_breakdown : List KbVariant
deriving DecidableEq

abbrev KnowledgeBase := List (Str × SeriesData)

/-- `self.kb_data[key]` guarded by `key in self.kb_data`. -/
def kbFind (kb : KnowledgeBase) (key : Str) : Option SeriesData :=
  (kb.find? (fun p => p.1 == key)).map (fun p => p.2)

/-- The three possible return shapes of `_find_meter_specs`. -/
inductive FindResult
  | empty
  | variantSpecs (model summary variantName variantFeatures : Str)
      (perf : List Str) (tech : List (Str × Str))
  | seriesData (s : SeriesData)
deriving DecidableEq

/-- The `specs = {...}` dict built for a matched variant. -/
def buildSpecs (sd : SeriesData) (v : KbVariant) : FindResult :=
  .variantSpecs sd.model sd.summary v.model_name v.key_differentiator
    sd.performance_and_accuracy sd.technical_specifications

/-- comparison.py:98-127 — the hardcoded `PM8` branch: when the model
starts with `PM8` and `PM8000_Series` exists, match a variant whose name
contains the model's 3rd-4th characters; on no match fall through. -/
def pm8Stage (kb : KnowledgeBase) (m : Str) : Option FindResult :=
  if (strLit "PM8").isPrefixOf m then
    match kbFind kb (strLit "PM8000_Series") with
    | some sd =>
      if 4 ≤ m.length then
        (sd.model_breakdown.find?
          (fun v => isSubstr ((m.drop 2).take 2) v.model_name)).map
          (fun v => buildSpecs sd v)
      else none
    | none => none
  else none

/-- `re.match(r'([A-Za-z]+\d+)', model_number)`: one or more letters then
one or more digits, both greedy, anchored at the start — so for a full
model number such as `PM5350` the whole digit run is captured. -/
def familyStem (m : Str) : Option Str :=
  let letters := m.takeWhile isAlphaCh
  let digits := (m.drop letters.length).takeWhile isDigitCh
  if letters.isEmpty || digits.isEmpty then none
  else some (letters ++ digits)

/-- `series_key = f"{prefix}000_Series"`. -/
def seriesKeyOf (stem : Str) : Str := stem ++ strLit "000_Series"

/-- comparison.py:150-152 — the three variant matching strategies. -/
def variantMatches (m : Str) (v : KbVariant) : Bool :=
  isSubstr m v.model_name ||
  (m == v.model_name.takeWhile (fun c => c ≠ ' ')) ||
  (v.model_name.takeWhile (fun c => c ≠ 'x')).isPrefixOf m

/-- comparison.py:129-169 — family-series lookup.  Returns `some .empty`
for the early `return {}` when the stem regex fails; `none` when the
series key is absent (fall through to the next stage). -/
def familyStage (kb : KnowledgeBase) (m : Str) : Option FindResult :=
  match familyStem m with
  | none => some .empty
  | some stem =>
    match kbFind kb (seriesKeyOf stem) with
    | some sd =>
      match sd.model_breakdown.find? (variantMatches m) with
      | some v => some (buildSpecs sd v)
      | none => some (.seriesData sd)
    | none => none

/-- comparison.py:171-175 — the special `iEM` branch. -/
def iemStage (kb : KnowledgeBase) (m : Str) : Option FindResult :=
  if (strLit "iEM").isPrefixOf m then
    (kbFind kb (strLit "iEM3000_Series")).map (fun sd => .seriesData sd)
  else none

/-- comparison.py:177-194 — last-resort scan of all series for a variant
name containing the requested model number. -/
def lastResortStage (kb : KnowledgeBase) (m : Str) : Option FindResult :=
  kb.findSome? (fun p =>
    (p.2.model_breakdown.find? (fun v => isSubstr m v.model_name)).map
      (fun v => buildSpecs p.2 v))

/-- `_find_meter_specs(model_number)`: the four stages in source order,
then `return {}`.  Total by construction — no lookup path raises. -/
def find_meter_specs (kb : KnowledgeBase) (m : Str) : FindResult :=
  match pm8Stage kb m with
  | some r => r
  | none =>
    match familyStage kb m with
    | some r => r
    | none =>
      match iemStage kb m with
      | some r => r
      | none =>
        match lastResortStage kb m with
        | some r => r
        | none => .empty

/-!
## The Candidate Ranker (`MeterDatabase.search_meters`, databasingcode.py:85)

Reasoning-service calls are oracle parameters at the granularity of their
parsed payloads:
* `aiRank`  — `_ai_rank_meters`' parsed `rankings` list (`none`: no JSON
  block found or an exception; both take the fallback path);
* `specOracle` — `_analyze_spec_compliance_with_ai` (total: its failure
  path returns the `_basic_spec_compliance` dict);
* `kbOracle` — `_kb_fallback_selection`'s parsed `matches` list with
  three-valued failure: outer `none` for the paths that `return []`
  (missing/unparseable knowledge base, chat or JSON-decode exception);
  `some none` for a chat response with no JSON object at all, where the
  Python function falls off its end and returns `None`;
* `rerankOracle` — `_combine_and_rank_matches`' re-ranking array; outer
  `none` for the exception path, `some none` for "no JSON array found".

Scores are integers; Python's `int(score * 1.3)` etc. are embedded as
exact `(score * 13).tdiv 10` (float rounding can differ by one ulp on
huge scores; no claim reads a score).
-/

/-- Python ASCII upper-casing of one character. -/
def upperChar (c : Char) : Char :=
  if 'a' ≤ c ∧ c ≤ 'z' then Char.ofNat (c.toNat - 32) else c

/-- Python `str.upper()`. -/
def upperStr (s : Str) : Str := s.map upperChar

/-- `' '.join(parts)`. -/
def joinSpace : List Str → Str
  | [] => []
  | [s] => s
  | s :: rest => s ++ strLit " " ++ joinSpace rest

/-- One row of the candidate pool (`_get_candidate_meters` output). -/
structure Candidate where
  ModelNumber : Str
  ProductDescription : Str
  ProductID : ℕ
deriving DecidableEq

/-- `MeterMatch` (databasingcode.py:50). -/
structure MeterMatch where
  model_number : Str
  description : Str
  score : ℤ
  reasoning : Str
  product_id : Str
  spec_compliance : List (Str × Str)
deriving DecidableEq, Inhabited

/-- `MeterRequirement` (databasingcode.py:43). -/
structure MeterRequirement where
  clause_id : Str
  meter_type : Str
  specifications : List Str
  content : Str
deriving DecidableEq, Inhabited

/-- One entry of the primary ranking call's `rankings` array. -/
structure AiRanking where
  model : Option Str
  score : Option ℤ
  value_score : Option ℤ
  fit_reasoning : Option Str
  value_reasoning : Option Str
deriving DecidableEq

/-- One entry of the knowledge-base matching call's `matches` array. -/
structure KbMatchInfo where
  series : Option Str
  model : Option Str
  score : Option ℤ
  reasoning : Option Str
deriving DecidableEq

/-- One entry of the re-ranking call's array. -/
structure RerankInfo where
  index : ℤ
  final_score : Option ℤ
  value_reasoning : Option Str
deriving DecidableEq

/-- `'economic' ... in req_text` (databasingcode.py:523, 652, 776). -/
def costSensitive (req : MeterRequirement) : Bool :=
  let t := lowerStr (joinSpace req.specifications)
  isSubstr (strLit "economic") t || isSubstr (strLit "cost-effective") t ||
  isSubstr (strLit "basic") t || isSubstr (strLit "simple") t ||
  isSubstr (strLit "budget") t || isSubstr (strLit "affordable") t

/-- `'precision' ... in req_text` (databasingcode.py:528, 657, 780). -/
def highEnd (req : MeterRequirement) : Bool :=
  let t := lowerStr (joinSpace req.specifications)
  isSubstr (strLit "precision") t || isSubstr (strLit "high accuracy") t ||
  isSubstr (strLit "class 0.1") t || isSubstr (strLit "advanced power quality") t ||
  isSubstr (strLit "extensive analysis") t || isSubstr (strLit "comprehensive") t ||
  isSubstr (strLit "harmonic") t

/-- The allow-list of known real model numbers
(`valid_models`, databasingcode.py:261-282). -/
def validModels : List Str :=
  [strLit "ION9000", strLit "ION9000T",
   strLit "PM8140", strLit "PM8143", strLit "PM8144",
   strLit "PM8240", strLit "PM8243", strLit "PM8244",
   strLit "PM8340", strLit "PM8341", strLit "PM8342", strLit "PM8343", strLit "PM8344",
   strLit "PM5100", strLit "PM5110", strLit "PM5111",
   strLit "PM5300", strLit "PM5310", strLit "PM5320", strLit "PM5330",
   strLit "PM5340", strLit "PM5341",
   strLit "PM5560", strLit "PM5561", strLit "PM5562", strLit "PM5563", strLit "PM5580",
   strLit "PM2100", strLit "PM2110", strLit "PM2120", strLit "PM2130",
   strLit "PM2200", strLit "PM2210", strLit "PM2220", strLit "PM2230",
   strLit "iEM3150", strLit "iEM3155", strLit "iEM3250", strLit "iEM3255",
   strLit "iEM3350", strLit "iEM3355", strLit "iEM3455", strLit "iEM3555"]

/-- `_verify_model_exists(model_number, candidates)`
(databasingcode.py:243): candidates list, then the `Products` table
(its `ModelNumber` column passed here as `dbModels`), then the allow-list
exactly, then an `xx` series wildcard against the allow-list. -/
def verify_model_exists (dbModels : List Str) (candidates : Option (List Candidate))
    (m : Str) : Bool :=
  (match candidates with
   | some cs => cs.any (fun c => c.ModelNumber == m)
   | none => false) ||
  dbModels.any (fun d => d == m) ||
  validModels.any (fun v => v == m) ||
  ((strLit "xx").isSuffixOf m &&
    validModels.any (fun v => (m.take (m.length - 2)).isPrefixOf v))

/-- `candidate_lookup = {m['ModelNumber']: m for m in candidates}` — a
dict comprehension keeps the last row per model number. -/
def candLookup (candidates : List Candidate) (m : Str) : Option Candidate :=
  candidates.reverse.find? (fun c => c.ModelNumber == m)

/-- `str(n)` for the numeric product id. -/
def natRepr (n : ℕ) : Str := Nat.toDigits 10 n

/-- `_convert_ai_rankings` (databasingcode.py:426): keep rankings whose
model is in the lookup, average technical and value scores, join the two
reasonings, and attach the per-ranking spec-compliance analysis. -/
def convert_ai_rankings (specOracle : List Str → Str → List (Str × Str))
    (rankings : List AiRanking) (candidates : List Candidate)
    (req : MeterRequirement) : List MeterMatch :=
  rankings.filterMap (fun rk =>
    (candLookup candidates (rk.model.getD [])).map (fun mi =>
      { model_number := rk.model.getD [],
        description := mi.ProductDescription,
        score := ((rk.score.getD 50) + (rk.value_score.getD (rk.score.getD 50))).tdiv 2,
        reasoning := rk.fit_reasoning.getD [] ++
          (if (rk.value_reasoning.getD []).isEmpty then []
           else strLit " Value consideration: " ++ rk.value_reasoning.getD []),
        product_id := natRepr mi.ProductID,
        spec_compliance := specOracle req.specifications mi.ProductDescription }))

/-- The emergency rule-based selection at the end of `_fallback_ranking`
(databasingcode.py:606-642): group candidates by series substring, order
the groups by the cost/high-end signal, take the first of each group. -/
def emergencySelection (candidates : List Candidate) (req : MeterRequirement) :
    List MeterMatch :=
  let pm2 := candidates.filter (fun m => isSubstr (strLit "PM2") m.ModelNumber)
  let pm5 := candidates.filter (fun m => isSubstr (strLit "PM5") m.ModelNumber)
  let pm8 := candidates.filter (fun m => isSubstr (strLit "PM8") m.ModelNumber)
  let ion := candidates.filter (fun m => isSubstr (strLit "ION") m.ModelNumber)
  let iem := candidates.filter (fun m => isSubstr (strLit "IEM") (upperStr m.ModelNumber))
  let groups :=
    if costSensitive req then [pm2, pm5, iem, pm8, ion]
    else if highEnd req then [pm8, ion, pm5, pm2, iem]
    else [pm5, pm8, pm2, ion, iem]
  let reasoning :=
    if costSensitive req then strLit "Selected for cost-effectiveness based on requirements"
    else if highEnd req then strLit "Selected to meet advanced technical requirements"
    else strLit "Selected for balanced performance and value"
  (groups.filterMap (fun g => g.head?)).map (fun m =>
    { model_number := m.ModelNumber,
      description := m.ProductDescription,
      score := 70,
      reasoning := reasoning,
      product_id := natRepr m.ProductID,
      spec_compliance := [] })

/-- `_fallback_ranking` (databasingcode.py:516).  Every path of the
function reaches the emergency selection: the method
`_convert_fallback_rankings` it calls on a successful fallback ranking is
defined nowhere in the file, so that call raises `AttributeError`, which
the surrounding `except` swallows; an unparseable response or an empty
validated ranking falls through to the same place. -/
def fallback_ranking (candidates : List Candidate) (req : MeterRequirement) :
    List MeterMatch :=
  emergencySelection candidates req

/-- `_ai_rank_meters` (databasingcode.py:307): validate every recommended
model against the candidate pool, drop invalid ones, fall back when
every recommendation was invalid (or the response was unusable). -/
def ai_rank_meters (aiRank : Option (List AiRanking))
    (specOracle : List Str → Str → List (Str × Str))
    (candidates : List Candidate) (req : MeterRequirement) : List MeterMatch :=
  match aiRank with
  | none => fallback_ranking candidates req
  | some rankings =>
    let valid := rankings.filter (fun rk =>
      candidates.any (fun c => c.ModelNumber == rk.model.getD []))
    let invalid := rankings.filter (fun rk =>
      ¬ candidates.any (fun c => c.ModelNumber == rk.model.getD []))
    if invalid.isEmpty then convert_ai_rankings specOracle rankings candidates req
    else if valid.isEmpty then fallback_ranking candidates req
    else convert_ai_rankings specOracle valid candidates req

/-- `_kb_fallback_selection` (databasingcode.py:644): `some` of the
returned list, or `none` when the Python function returns `None` (no JSON
object in the response, or a parsed `matches` list that is empty — both
fall off the end of the function). -/
def kb_fallback_selection (kbOracle : Option (Option (List KbMatchInfo)))
    (dbModels : List Str) (_req : MeterRequirement) : Option (List MeterMatch) :=
  match kbOracle with
  | none => some []
  | some none => none
  | some (some mts) =>
    if mts.isEmpty then none
    else some ((mts.filter (fun mt =>
        verify_model_exists dbModels none (mt.model.getD (strLit "Unknown Model")))).map
      (fun mt =>
        { model_number := mt.model.getD (strLit "Unknown Model"),
          description := strLit "From " ++ mt.series.getD (strLit "Unknown Series"),
          score := mt.score.getD 60,
          reasoning := mt.reasoning.getD [],
          product_id := strLit "KB_" ++ mt.model.getD (strLit "Unknown Model"),
          spec_compliance := [] }))

/-- The per-match value adjustment of the single-source branch
(databasingcode.py:792-831). -/
def scoreAdjustSingle (cost highe : Bool) (m : MeterMatch) : MeterMatch :=
  let mn := upperStr m.model_number
  if cost then
    if isSubstr (strLit "PM2") mn then
      { m with score := min 100 ((m.score * 13).tdiv 10),
               reasoning := m.reasoning ++ strLit " (Selected for cost-effectiveness)" }
    else if isSubstr (strLit "PM5") mn then
      { m with score := min 100 ((m.score * 11).tdiv 10) }
    else if isSubstr (strLit "PM8") mn then
      { m with score := max 30 ((m.score * 8).tdiv 10) }
    else if isSubstr (strLit "ION9") mn then
      { m with score := max 20 ((m.score * 6).tdiv 10) }
    else m
  else if highe then
    if isSubstr (strLit "ION9") mn then
      { m with score := min 100 ((m.score * 13).tdiv 10),
               reasoning := m.reasoning ++ strLit " (Selected for advanced capabilities)" }
    else if isSubstr (strLit "PM8") mn then
      { m with score := min 100 ((m.score * 12).tdiv 10) }
    else if isSubstr (strLit "PM5") mn then m
    else if isSubstr (strLit "PM2") mn then
      { m with score := max 30 ((m.score * 7).tdiv 10) }
    else m
  else m

/-- The basic value scoring of the no-JSON re-ranking fallback
(databasingcode.py:918-931). -/
def scoreAdjustBasic (cost : Bool) (m : MeterMatch) : MeterMatch :=
  let mn := upperStr m.model_number
  if cost then
    if isSubstr (strLit "PM2") mn then
      { m with score := min 100 ((m.score * 13).tdiv 10) }
    else if isSubstr (strLit "ION9") mn then
      { m with score := max 20 ((m.score * 6).tdiv 10) }
    else m
  else m

/-- Stable insertion for a descending sort by score (`sorted(...,
key=lambda x: x.score, reverse=True)`; Python's sort is stable). -/
def insertDesc (m : MeterMatch) : List MeterMatch → List MeterMatch
  | [] => [m]
  | x :: xs => if x.score ≤ m.score then m :: x :: xs else x :: insertDesc m xs

def sortDesc (l : List MeterMatch) : List MeterMatch :=
  l.foldr insertDesc []

/-- One re-ranked entry: index into the combined list, updated score,
appended value reasoning (databasingcode.py:896-908). -/
def applyRerank (all : List MeterMatch) (ri : RerankInfo) : Option MeterMatch :=
  if 0 ≤ ri.index ∧ ri.index < (all.length : ℤ) then
    (all.get? ri.index.toNat).map (fun m =>
      { m with
        score := ri.final_score.getD m.score,
        reasoning := m.reasoning ++
          (match ri.value_reasoning with
           | some vr =>
             if vr.isEmpty then [] else strLit " Value assessment: " ++ vr
           | none => []) })
  else none

/-- `_combine_and_rank_matches` (databasingcode.py:770): single-source
lists get fixed multiplicative boosts/penalties and a sort; two-source
lists are re-ranked holistically by a further reasoning call, with
un-ranked entries appended in original order. -/
def combine_and_rank (db_matches kb_matches : List MeterMatch)
    (rerankOracle : Option (Option (List RerankInfo)))
    (req : MeterRequirement) : List MeterMatch :=
  let all := db_matches ++ kb_matches
  if all.isEmpty then []
  else if db_matches.isEmpty || kb_matches.isEmpty then
    sortDesc (all.map (scoreAdjustSingle (costSensitive req) (highEnd req)))
  else
    match rerankOracle with
    | none => sortDesc all
    | some none => sortDesc (all.map (scoreAdjustBasic (costSensitive req)))
    | some (some ranking) =>
      let final := ranking.filterMap (applyRerank all)
      let rankedIdx := ranking.map (fun ri => ri.index)
      final ++ ((List.range all.length).filterMap (fun (i : ℕ) =>
        if (i : ℤ) ∈ rankedIdx then none else all.get? i))

/-- `search_meters` (databasingcode.py:85): database candidates ranked by
the primary call (when the pool is non-empty), knowledge-base matches
always consulted, both combined and capped at the top 5.  `none` models
the `TypeError` crash in `_combine_and_rank_matches` when
`_kb_fallback_selection` returned `None` (`db_matches + None`). -/
def search_meters (aiRank : Option (List AiRanking))
    (specOracle : List Str → Str → List (Str × Str))
    (kbOracle : Option (Option (List KbMatchInfo)))
    (rerankOracle : Option (Option (List RerankInfo)))
    (dbModels : List Str) (candidates : List Candidate)
    (req : MeterRequirement) : Option (List MeterMatch) :=
  let database_matches :=
    if candidates.isEmpty then []
    else ai_rank_meters aiRank specOracle candidates req
  match kb_fallback_selection kbOracle dbModels req with
  | none => none
  | some kb_matches =>
    some ((combine_and_rank database_matches kb_matches rerankOracle req).take 5)

/-!
## The Requirement Extractor (`DocumentParser`, databasingcode.py:948, 1035)

`extract_meter_requirements(text, manual_clauses)` scans the lines for
section headers matching `^([A-Za-z]?\d+(\.\d+)*)([)\.]|\s)\s*(.+)?$`
(applied to the stripped line), keeps those whose id is in the manual
clause set, slices the document between consecutive kept headers, and
parses each slice with one reasoning call (`_parse_meter_section`).  The
per-section call is an oracle `DocSection → Option ParsePayload`; `none`
covers a response with no JSON block (where the Python function hits a
`NameError` on `unique_specs` and the `except` returns `None`) and any
other exception.
-/

/-- One sliced document section (the dict built at databasingcode.py:968). -/
structure DocSection where
  clause_id : Str
  title : Str
  content : Str
deriving DecidableEq

/-- The parsed JSON payload of the per-section extraction call, with the
`dict.get` defaults for `specifications` and `has_sufficient_specs`
absorbed. -/
structure ParsePayload where
  specifications : List Str
  meter_type : Option Str
  has_sufficient_specs : Bool
  reasoning : Option Str
deriving DecidableEq

/-- `'\n'.join(parts)`. -/
def joinNl : List Str → Str
  | [] => []
  | [s] => s
  | s :: rest => s ++ strLit "\n" ++ joinNl rest

/-- The `(\.\d+)*` repetitions after the first digit run: each repetition
is a dot followed by a maximal non-empty digit run; returns the
repetitions and the remainder. -/
def dottedTailAux : ℕ → Str → List Str × Str
  | 0, s => ([], s)
  | fuel + 1, s =>
    match s with
    | '.' :: rest =>
      let d := rest.takeWhile isDigitCh
      if d.isEmpty then ([], s)
      else
        let p := dottedTailAux fuel (rest.drop d.length)
        (('.' :: d) :: p.1, p.2)
    | _ => ([], s)

/-- `section_pattern.match(line.strip())` for
`^([A-Za-z]?\d+(\.\d+)*)([)\.]|\s)\s*(.+)?$`, returning
`(group(1), group(4) or "")`.  The only backtracking this pattern admits
is giving the last `\.\d+` repetition back so that its dot serves as the
separator; everything else is maximal munch. -/
def sectionHeader? (line : Str) : Option (Str × Str) :=
  let s := stripStr line
  let letter : Str :=
    match s.head?, (s.drop 1).head? with
    | some c, some d => if isAlphaCh c && isDigitCh d then [c] else []
    | _, _ => []
  let rest0 := s.drop letter.length
  let d1 := rest0.takeWhile isDigitCh
  if d1.isEmpty then none
  else
    let afterD1 := rest0.drop d1.length
    let p := dottedTailAux afterD1.length afterD1
    match p.2.head? with
    | some c =>
      if c = ')' || c = '.' || isWs c then
        some (letter ++ d1 ++ p.1.flatten, (p.2.drop 1).dropWhile isWs)
      else
        match p.1.getLast? with
        | some lastRep =>
          some (letter ++ d1 ++ p.1.dropLast.flatten,
            (lastRep.drop 1 ++ p.2).dropWhile isWs)
        | none => none
    | none =>
      match p.1.getLast? with
      | some lastRep =>
        some (letter ++ d1 ++ p.1.dropLast.flatten,
          (lastRep.drop 1 ++ p.2).dropWhile isWs)
      | none => none

/-- The header positions whose id is in the manual clause set
(databasingcode.py:953-962; they are collected in line order, so the
subsequent sort by position is the identity). -/
def clausePositions (text : Str) (manual_clauses : List Str) :
    List (Str × ℕ × Str) :=
  (splitLines text).enum.filterMap (fun p =>
    match sectionHeader? p.2 with
    | some (sid, title) =>
      if manual_clauses.any (fun c => stripStr c == sid) then
        some (sid, p.1, stripStr title)
      else none
    | none => none)

/-- Slice the document between consecutive kept headers
(databasingcode.py:964-966). -/
def buildSections (lines : List Str) : List (Str × ℕ × Str) → List DocSection
  | [] => []
  | pos :: rest =>
    let endIdx := match rest.head? with
      | some nxt => nxt.2.1
      | none => lines.length
    { clause_id := pos.1, title := pos.2.2,
      content := joinNl ((lines.drop pos.2.1).take (endIdx - pos.2.1)) } ::
      buildSections lines rest

/-- `meter_type_patterns` (databasingcode.py:1053-1059). -/
def meterTypePatterns : List (Str × List Str) :=
  [(strLit "Power Quality Meter",
    [strLit "power quality meter", strLit "pqm", strLit "quality"]),
   (strLit "Digital Power Meter",
    [strLit "digital power meter", strLit "dpm", strLit "digital meter"]),
   (strLit "Multi-Function Meter",
    [strLit "multi-function", strLit "multifunction", strLit "multi function"]),
   (strLit "Energy Meter",
    [strLit "energy meter", strLit "billing meter", strLit "revenue meter"]),
   (strLit "Basic Power Meter",
    [strLit "basic meter", strLit "basic power"])]

/-- The explicit meter type found in the section title (the second,
`"specification"`-guarded loop repeats the same search and cannot change
the result). -/
def explicitMeterType (title : Str) : Option Str :=
  ((meterTypePatterns).find? (fun p =>
    p.2.any (fun pat => isSubstr pat (lowerStr title)))).map (fun p => p.1)

/-- Python `str.split()`: maximal non-whitespace runs. -/
def splitWsAux : ℕ → Str → List Str
  | 0, _ => []
  | fuel + 1, s =>
    match s.dropWhile isWs with
    | [] => []
    | c :: rest =>
      let w := (c :: rest).takeWhile (fun x => !(isWs x))
      w :: splitWsAux fuel ((c :: rest).drop w.length)

def splitWs (s : Str) : List Str := splitWsAux s.length s

/-- `set(re.sub(r'[^\w\s]', '', spec.lower()).split())`: the distinct
normalized tokens of a specification. -/
def specTokens (spec : Str) : List Str :=
  dedupFirst (splitWs ((lowerStr spec).filter (fun c => isWordCh c || isWs c)))

/-- Size of the intersection of two token sets (both deduplicated). -/
def interCount (a b : List Str) : ℕ :=
  (a.filter (fun t => b.any (fun u => u == t))).length

/-- The token-overlap deduplication loop (databasingcode.py:1148-1159):
drop a spec whose token set overlaps a kept spec's set on more than 70%
of its tokens.  The threshold test `count > len * 0.7` is embedded
exactly as `10 * count > 7 * len` (float rounding could differ only at
the exact-70% boundary for some set sizes). -/
def dedupSpecsAux (seen : List (List Str)) : List Str → List Str
  | [] => []
  | spec :: rest =>
    let toks := specTokens spec
    if seen.any (fun prev => 7 * toks.length < 10 * interCount toks prev) then
      dedupSpecsAux seen rest
    else spec :: dedupSpecsAux (toks :: seen) rest

/-- `_parse_meter_section` (databasingcode.py:1035): on a parsed payload,
prefer an explicit meter type from the title, deduplicate the
specifications only when `has_sufficient_specs` and the list is
non-empty, and always return a `MeterRequirement` — even when the parsed
specification list is empty. -/
def parse_meter_section (oracle : DocSection → Option ParsePayload)
    (sec : DocSection) : Option MeterRequirement :=
  match oracle sec with
  | none => none
  | some pr =>
    some { clause_id := sec.clause_id,
           meter_type :=
             match explicitMeterType sec.title with
             | some t => t
             | none => pr.meter_type.getD (strLit "Power Meter"),
           specifications :=
             if pr.has_sufficient_specs ∧ ¬ pr.specifications.isEmpty then
               dedupSpecsAux [] pr.specifications
             else pr.specifications,
           content := sec.content }

/-- `extract_meter_requirements` (databasingcode.py:948): slice the
manually selected clause sections and keep every section whose parse call
returns a record (`if req:` only filters the `None` of a failed parse —
a `MeterRequirement` object is always truthy). -/
def extract_meter_requirements (oracle : DocSection → Option ParsePayload)
    (text : Str) (manual_clauses : List Str) : List MeterRequirement :=
  (buildSections (splitLines text) (clausePositions text manual_clauses)).filterMap
    (parse_meter_section oracle)

/-!
## Concrete reports used to instantiate the theorems below
-/

/-- A reasoning response that is one valid JSON document of nesting depth
3 — beyond the depth-2 brace-block regex. -/
def exDeepJson : Str :=
  strLit "\x7b\"compliance_analysis\": [], \"overall_compliance\": false, \"meta\": \x7b\"a\": \x7b\"b\": 1\x7d\x7d\x7d"

/-- What `json.loads` yields on the full `exDeepJson`. -/
def exDeepVal : JValue :=
  .jobj [(strLit "compliance_analysis", .jarr []),
         (strLit "overall_compliance", .jbool false),
         (strLit "meta", .jobj [(strLit "a", .jobj [(strLit "b", .jnum false ⟨1, 0⟩)])])]

/-- The inner depth-2 block the regex stage extracts from `exDeepJson`. -/
def exInnerVal : JValue :=
  .jobj [(strLit "a", .jobj [(strLit "b", .jnum false ⟨1, 0⟩)])]

/-- A response with one flat JSON object amid prose. -/
def exFlatJson : Str :=
  strLit "Sure, here is the analysis: \x7b\"overall_compliance\": true\x7d thanks"

def exFlatVal : JValue := .jobj [(strLit "overall_compliance", .jbool true)]

/-- A three-line tender document with one clause header. -/
def exDoc : Str :=
  strLit "6.5 Digital Power Meter\n- shall meter energy\nother text"

/-- A successfully parsed payload with zero extracted specifications. -/
def exEmptyPayload : ParsePayload :=
  { specifications := [], meter_type := some (strLit "Digital Power Meter"),
    has_sufficient_specs := false,
    reasoning := some (strLit "no concrete specs found") }

/-- Oracle: clause 6.5 parses (with zero specs); everything else fails. -/
def exParseOracle : DocSection → Option ParsePayload :=
  fun sec => if sec.clause_id == strLit "6.5" then some exEmptyPayload else none

/-- The single record the extractor produces for `exDoc`. -/
def exExtracted : MeterRequirement :=
  (extract_meter_requirements exParseOracle exDoc [strLit "6.5"]).headI

/-- A requirement with no cost-sensitivity or high-end keywords. -/
def exPlainReq : MeterRequirement :=
  { clause_id := strLit "6.5", meter_type := strLit "Power Meter",
    specifications := [strLit "standard metering of energy values"],
    content := strLit "" }

/-- A knowledge-base match whose model is an `xx` series wildcard: it is
in neither the candidate pool nor the allow-list, but
`_verify_model_exists` accepts it. -/
def exWildInfo : KbMatchInfo :=
  { series := some (strLit "PM5000_Series"), model := some (strLit "PM21xx"),
    score := some 80, reasoning := some (strLit "mid-range fit") }

/-- The `MeterMatch` the ranker builds from `exWildInfo`. -/
def exWildMatch : MeterMatch :=
  { model_number := strLit "PM21xx", description := strLit "From PM5000_Series",
    score := 80, reasoning := strLit "mid-range fit",
    product_id := strLit "KB_PM21xx", spec_compliance := [] }

/-- A constant spec-compliance oracle. -/
def exSpecOracle : List Str → Str → List (Str × Str) := fun _ _ => []

/-- A two-candidate pool. -/
def exCands : List Candidate :=
  [{ ModelNumber := strLit "PM5560", ProductDescription := strLit "PowerLogic PM5560 meter",
     ProductID := 101 },
   { ModelNumber := strLit "PM2230", ProductDescription := strLit "PowerLogic PM2230 meter",
     ProductID := 102 }]

/-- A primary ranking naming one real and one invented model. -/
def exAiRankings : List AiRanking :=
  [{ model := some (strLit "PM5560"), score := some 90, value_score := some 80,
     fit_reasoning := some (strLit "meets the specs"), value_reasoning := none },
   { model := some (strLit "PM9999"), score := some 95, value_score := none,
     fit_reasoning := some (strLit "invented"), value_reasoning := none }]

/-- A primary ranking whose every model is invented. -/
def exAllInvented : List AiRanking :=
  [{ model := some (strLit "PM9999"), score := some 95, value_score := none,
     fit_reasoning := some (strLit "invented"), value_reasoning := none }]

/-- The ranker's output for the two-candidate pool with one valid and one
invented recommendation (and an empty knowledge-base result). -/
def exRankerOut : List MeterMatch :=
  (search_meters (some exAiRankings) exSpecOracle none none [] exCands exPlainReq).getD []

/-- A small knowledge base holding the PM5000 series with one variant. -/
def exPm5Series : SeriesData :=
  { model := strLit "PM5000",
    summary := strLit "PowerLogic PM5000 series",
    performance_and_accuracy := [strLit "Class 0.5S per IEC 62053-22"],
    technical_specifications := [(strLit "display", strLit "LCD")],
    model_breakdown :=
      [{ model_name := strLit "PM5560 advanced model",
         key_differentiator := strLit "dual ethernet" }] }

def exKb : KnowledgeBase := [(strLit "PM5000_Series", exPm5Series)]

/-- An item whose class pair forces a correction (raw verdict `False`). -/
def exClassItem : CItem :=
  { requirement := some (strLit "Class 0.5S accuracy"),
    spec_value := some (strLit "Class 0.2S"),
    complies := some false,
    justification := some (strLit "the meter does not satisfy the clause") }

def exClassReport : CResult :=
  { compliance_analysis := [exClassItem], overall_compliance := false,
    areas_exceeding_requirements := [], potential_issues := [] }

/-- The post-processed `exClassReport` (it processes successfully). -/
def exClassOut : CResult :=
  (post_process_compliance_logic exClassReport).getD exClassReport

/-- A report with one non-complying item that triggers no correction but a
raw `overall_compliance` of `True` (as a reasoning response may state). -/
def exRawTrueItem : CItem :=
  { requirement := some (strLit "RS-485 Modbus communication"),
    spec_value := some (strLit "not supported"),
    complies := some false,
    justification := some (strLit "the meter lacks this feature") }

def exRawTrueReport : CResult :=
  { compliance_analysis := [exRawTrueItem], overall_compliance := true,
    areas_exceeding_requirements := [], potential_issues := [] }

/-- Eleven requirement strings (forces the chunked path). -/
def exReqs11 : List Str :=
  [strLit "Req 01", strLit "Req 02", strLit "Req 03", strLit "Req 04",
   strLit "Req 05", strLit "Req 06", strLit "Req 07", strLit "Req 08",
   strLit "Req 09", strLit "Req 10", strLit "Req 11"]

/-- A fixed parsed chunk report, used as a constant oracle value. -/
def exChunkReport : CResult :=
  { compliance_analysis :=
      [{ requirement := some (strLit "Req"), spec_value := some (strLit "ok"),
         complies := some true, justification := some (strLit "fits") }],
    overall_compliance := true,
    areas_exceeding_requirements := [strLit "Req (ok)"],
    potential_issues := [] }

/-- A constant reasoning oracle. -/
def exOracle : List Str → Option CResult := fun _ => some exChunkReport

/-- A non-empty normalized meter-specification mapping. -/
def exSpecsPairs : List (Str × Str) := [(strLit "model_name", strLit "PM5560")]

/-- A report with an already-true item, for the monotonicity witness. -/
def exTrueItem : CItem :=
  { requirement := some (strLit "Operating temperature -25 to 70 C"),
    spec_value := some (strLit "-25 to 70 C"),
    complies := some true,
    justification := some (strLit "exceeds requirement of the clause") }

def exMonoReport : CResult :=
  { compliance_analysis := [exTrueItem, exClassItem], overall_compliance := false,
    areas_exceeding_requirements := [], potential_issues := [] }

def exMonoOut : CResult :=
  (post_process_compliance_logic exMonoReport).getD exMonoReport

/-!
## Theorems: semantics of the numeric comparisons
-/

/-- `valLE` decides `≤` on the rational values. -/
theorem valLE_iff (a b : DecVal) : valLE a b = true ↔ a.toRat ≤ b.toRat := by
  unfold valLE DecVal.toRat
  rw [decide_eq_true_iff, div_le_div_iff₀ (by positivity) (by positivity)]
  constructor
  · intro h
    exact_mod_cast h
  · intro h
    exact_mod_cast h

/-- `overallThreshold` is the fraction test `compliant/total ≥ 0.8` of the
source, for non-empty item lists. -/
theorem overallThreshold_iff (items : List CItem) (h : items.length ≠ 0) :
    overallThreshold items = true ↔
      (4 : ℚ) / 5 ≤ (compliantCount items : ℚ) / (items.length : ℚ) := by
  unfold overallThreshold
  rw [if_neg h, decide_eq_true_iff,
    div_le_div_iff₀ (by norm_num) (by positivity)]
  constructor
  · intro hle
    have : (4 * items.length : ℕ) ≤ compliantCount items * 5 := by omega
    exact_mod_cast this
  · intro hle
    have : (4 * items.length : ℕ) ≤ compliantCount items * 5 := by exact_mod_cast hle
    omega

/-!
## Shape lemmas about the correction passes
-/

/-- Any successful pass either leaves the state alone or fires one
correction on it. -/
theorem classPass_shape {req spec : Str} {orig : Bool} {area : Str}
    {st st' : CItem × ℕ × List Str}
    (h : classPass req spec orig area st = some st') :
    st' = st ∨ ∃ j, st' = fireCorrection j area st := by
  unfold classPass at h
  repeat' split at h
  all_goals simp_all
  exact Or.inr ⟨_, h.symm⟩

theorem pctPass_shape {req spec : Str} {orig : Bool} {area : Str}
    {st st' : CItem × ℕ × List Str}
    (h : pctPass req spec orig area st = some st') :
    st' = st ∨ ∃ j, st' = fireCorrection j area st := by
  unfold pctPass at h
  repeat' split at h
  all_goals simp_all
  exact Or.inr ⟨_, h.symm⟩

theorem phrasePass_shape {just : Str} {orig : Bool} {area : Str}
    {st st' : CItem × ℕ × List Str}
    (h : phrasePass just orig area st = some st') :
    st' = st ∨ ∃ j, st' = fireCorrection j area st := by
  unfold phrasePass at h
  repeat' split at h
  all_goals simp_all
  exact Or.inr ⟨_, h.symm⟩

/-- A pass keeps the requirement and spec texts, and never un-sets a
`complies = True`. -/
theorem shape_preserves {area : Str} {st st' : CItem × ℕ × List Str}
    (h : st' = st ∨ ∃ j, st' = fireCorrection j area st) :
    st'.1.requirement = st.1.requirement ∧ st'.1.spec_value = st.1.spec_value ∧
      (st.1.compliesGet = true → st'.1.compliesGet = true) := by
  rcases h with rfl | ⟨j, rfl⟩
  · exact ⟨rfl, rfl, id⟩
  · exact ⟨rfl, rfl, fun _ => rfl⟩

/-- The class correction fires whenever both texts carry parsable class
tokens with the meter's value ≤ the requirement's and the raw verdict was
`False`. -/
theorem classPass_fires {req spec : Str} {area : Str}
    {st : CItem × ℕ × List Str} {rw rg sw sg : Str} {rv sv : DecVal}
    (hr : searchClass req = some (rw, rg)) (hs : searchClass spec = some (sw, sg))
    (hrv : parseDec? rg = some rv) (hsv : parseDec? sg = some sv)
    (hle : valLE sv rv = true) :
    classPass req spec false area st = some (fireCorrection (classJust rw sw) area st) := by
  simp [classPass, hr, hs, hrv, hsv, hle]

/-- The percentage correction fires under the analogous conditions. -/
theorem pctPass_fires {req spec : Str} {area : Str}
    {st : CItem × ℕ × List Str} {rv sv : DecVal}
    (hr : searchPct req = some rv) (hs : searchPct spec = some sv)
    (hle : valLE sv rv = true) :
    pctPass req spec false area st = some (fireCorrection (pctJust rv sv) area st) := by
  simp [pctPass, hr, hs, hle]

/-- A processed item keeps its requirement/spec texts, and a `True`
verdict survives processing. -/
theorem processItem_shape {it : CItem} {o : CItem × ℕ × List Str}
    (h : processItem it = some o) :
    o.1.requirement = it.requirement ∧ o.1.spec_value = it.spec_value ∧
      (it.compliesGet = true → o.1.compliesGet = true) := by
  unfold processItem at h
  split at h
  · exact absurd h (by simp)
  case _ st1 h1 =>
    split at h
    · exact absurd h (by simp)
    case _ st2 h2 =>
      obtain ⟨q1, s1, c1⟩ := shape_preserves (classPass_shape h1)
      obtain ⟨q2, s2, c2⟩ := shape_preserves (pctPass_shape h2)
      obtain ⟨q3, s3, c3⟩ := shape_preserves (phrasePass_shape h)
      exact ⟨q3.trans (q2.trans q1), s3.trans (s2.trans s1),
        fun hc => c3 (c2 (c1 hc))⟩

/-- If the item carries an accuracy-class pair or a percentage pair with
the meter's value equal-or-better, the processed item complies. -/
theorem processItem_forced {it : CItem} {o : CItem × ℕ × List Str}
    (h : processItem it = some o)
    (hcond :
      (∃ rw rg sw sg rv sv,
        searchClass (lowerStr it.reqGet) = some (rw, rg) ∧
        searchClass (lowerStr it.specGet) = some (sw, sg) ∧
        parseDec? rg = some rv ∧ parseDec? sg = some sv ∧ valLE sv rv = true) ∨
      (∃ rv sv,
        searchPct (lowerStr it.reqGet) = some rv ∧
        searchPct (lowerStr it.specGet) = some sv ∧ valLE sv rv = true)) :
    o.1.compliesGet = true := by
  by_cases horig : it.compliesGet = true
  · exact (processItem_shape h).2.2 horig
  · have horig' : it.compliesGet = false := by
      cases hb : it.compliesGet
      · rfl
      · exact absurd hb horig
    unfold processItem at h
    rw [horig'] at h
    split at h
    · exact absurd h (by simp)
    case _ st1 h1 =>
      split at h
      · exact absurd h (by simp)
      case _ st2 h2 =>
        obtain ⟨_, _, c3⟩ := shape_preserves (phrasePass_shape h)
        rcases hcond with ⟨rqw, rg, sw, sg, rv, sv, hr, hs, hrv, hsv, hle⟩ |
            ⟨rv, sv, hr, hs, hle⟩
        · rw [classPass_fires hr hs hrv hsv hle] at h1
          obtain rfl : _ = st1 := Option.some_inj.mp h1
          obtain ⟨_, _, c2⟩ := shape_preserves (pctPass_shape h2)
          exact c3 (c2 rfl)
        · rw [pctPass_fires hr hs hle] at h2
          obtain rfl : _ = st2 := Option.some_inj.mp h2
          exact c3 rfl

/-- The loop processes the items pointwise. -/
theorem processItems_get {l : List CItem} {outs : List (CItem × ℕ × List Str)}
    (h : processItems l = some outs) :
    outs.length = l.length ∧
      ∀ i (hi : i < l.length) (hi' : i < outs.length),
        processItem (l.get ⟨i, hi⟩) = some (outs.get ⟨i, hi'⟩) := by
  induction l generalizing outs with
  | nil =>
    unfold processItems at h
    cases h
    exact ⟨rfl, fun i hi => absurd hi (by simp)⟩
  | cons it rest ih =>
    unfold processItems at h
    split at h
    case _ o os ho hos =>
      cases h
      obtain ⟨hlen, hget⟩ := ih hos
      refine ⟨by simp [hlen], ?_⟩
      intro i hi hi'
      cases i with
      | zero => simpa using ho
      | succ n => exact hget n (by simpa using hi) (by simpa using hi')
    · exact absurd h (by simp)

/-- Every output of the loop comes from processing some input item. -/
theorem processItems_mem {l : List CItem} {outs : List (CItem × ℕ × List Str)}
    (h : processItems l = some outs) {o : CItem × ℕ × List Str} (ho : o ∈ outs) :
    ∃ it ∈ l, processItem it = some o := by
  induction l generalizing outs with
  | nil =>
    unfold processItems at h
    cases h
    exact absurd ho (by simp)
  | cons it rest ih =>
    unfold processItems at h
    split at h
    case _ o' os ho' hos =>
      cases h
      rcases List.mem_cons.mp ho with rfl | hmem
      · exact ⟨it, List.mem_cons_self it rest, ho'⟩
      · obtain ⟨it', hit', hp⟩ := ih hos hmem
        exact ⟨it', List.mem_cons_of_mem _ hit', hp⟩
    · exact absurd h (by simp)

/-- The assembled report's analysis is always the processed items. -/
theorem assembleResult_analysis (r : CResult) (outs : List (CItem × ℕ × List Str)) :
    (assembleResult r outs).compliance_analysis = outs.map (fun o => o.1) := by
  unfold assembleResult
  split <;> rfl

/-- Success of the pass decomposed into loop plus assembly. -/
theorem post_process_decomp {r r' : CResult}
    (h : post_process_compliance_logic r = some r') :
    ∃ outs, processItems r.compliance_analysis = some outs ∧
      r' = assembleResult r outs := by
  unfold post_process_compliance_logic at h
  cases houts : processItems r.compliance_analysis with
  | none => rw [houts] at h; exact absurd h (by simp)
  | some outs =>
    rw [houts] at h
    exact ⟨outs, rfl, (Option.some_inj.mp h).symm⟩

/-- The analysis list of a post-processed report is the processed items. -/
theorem post_process_analysis {r r' : CResult}
    (h : post_process_compliance_logic r = some r') :
    ∃ outs, processItems r.compliance_analysis = some outs ∧
      r'.compliance_analysis = outs.map (fun o => o.1) := by
  obtain ⟨outs, houts, rfl⟩ := post_process_decomp h
  exact ⟨outs, houts, assembleResult_analysis r outs⟩

/-- How the returned `overall_compliance` is set: recomputed against the
0.8 threshold when a correction fired, untouched otherwise. -/
theorem post_process_overall {r r' : CResult}
    (h : post_process_compliance_logic r = some r') :
    (0 < correctedCount r →
      r'.overall_compliance = overallThreshold r'.compliance_analysis) ∧
    (correctedCount r = 0 → r'.overall_compliance = r.overall_compliance) := by
  obtain ⟨outs, houts, rfl⟩ := post_process_decomp h
  have hcc : correctedCount r = countSum outs := by
    unfold correctedCount
    rw [houts]
  rw [hcc, assembleResult_analysis]
  by_cases hpos : 0 < countSum outs
  · constructor
    · intro _
      unfold assembleResult
      rw [if_pos hpos]
    · intro hzero
      rw [hzero] at hpos
      exact absurd hpos (by omega)
  · constructor
    · intro hp
      exact absurd hp hpos
    · intro _
      unfold assembleResult
      rw [if_neg hpos]

/-!
## Chunking lemmas
-/

theorem chunksOfAux_nil {α : Type} (n fuel : ℕ) :
    chunksOfAux n fuel ([] : List α) = [] := by
  cases fuel <;> simp [chunksOfAux]

theorem chunksOfAux_ne_nil {α : Type} {n fuel : ℕ} {l : List α}
    (hl : l ≠ []) (hn : n ≠ 0) (hfuel : l.length ≤ fuel) :
    chunksOfAux n fuel l ≠ [] := by
  cases fuel with
  | zero =>
    have : l = [] := by
      cases l with
      | nil => rfl
      | cons a rest => simp at hfuel
    exact absurd this hl
  | succ fuel =>
    simp only [chunksOfAux]
    rw [if_neg]
    · simp
    · simp [hl, hn]

/-- The chunks concatenate back to the original list. -/
theorem chunksOfAux_flatten {α : Type} (n : ℕ) (hn : n ≠ 0) :
    ∀ (fuel : ℕ) (l : List α), l.length ≤ fuel →
      (chunksOfAux n fuel l).flatten = l := by
  intro fuel
  induction fuel with
  | zero =>
    intro l hl
    have : l = [] := by
      cases l with
      | nil => rfl
      | cons a rest => simp at hl
    subst this
    simp [chunksOfAux]
  | succ fuel ih =>
    intro l hl
    by_cases hnil : l = []
    · subst hnil
      simp [chunksOfAux]
    · simp only [chunksOfAux]
      rw [if_neg (by simp [hnil, hn])]
      simp only [List.flatten_cons]
      rw [ih (l.drop n) (by simp; omega)]
      exact List.take_append_drop n l

/-- Every chunk is non-empty and no longer than the chunk size. -/
theorem chunksOfAux_sizes {α : Type} (n : ℕ) :
    ∀ (fuel : ℕ) (l : List α), ∀ c ∈ chunksOfAux n fuel l,
      c ≠ [] ∧ c.length ≤ n := by
  intro fuel
  induction fuel with
  | zero =>
    intro l c hc
    simp [chunksOfAux] at hc
  | succ fuel ih =>
    intro l c hc
    simp only [chunksOfAux] at hc
    by_cases hcond : l.isEmpty = true ∨ n = 0
    · rw [if_pos hcond] at hc
      simp at hc
    · rw [if_neg hcond] at hc
      have hl : l ≠ [] := by
        intro h
        exact hcond (Or.inl (by simp [h]))
      have hn : n ≠ 0 := fun h => hcond (Or.inr h)
      rcases List.mem_cons.mp hc with rfl | hmem
      · constructor
        · intro htake
          have := congrArg List.length htake
          simp at this
          rcases this with h | h
          · exact hn h
          · exact hl (by cases l with | nil => rfl | cons a r => simp at h)
        · simp
      · exact ih (l.drop n) c hmem

/-- All chunks except possibly the last have exactly the chunk size. -/
theorem chunksOfAux_dropLast {α : Type} (n : ℕ) (hn : n ≠ 0) :
    ∀ (fuel : ℕ) (l : List α), l.length ≤ fuel →
      ∀ c ∈ (chunksOfAux n fuel l).dropLast, c.length = n := by
  intro fuel
  induction fuel with
  | zero =>
    intro l hl c hc
    simp [chunksOfAux] at hc
  | succ fuel ih =>
    intro l hl c hc
    by_cases hnil : l = []
    · subst hnil
      simp [chunksOfAux] at hc
    · simp only [chunksOfAux] at hc
      rw [if_neg (by simp [hnil, hn])] at hc
      by_cases hrest : l.drop n = []
      · rw [hrest, chunksOfAux_nil] at hc
        simp at hc
      · have hlen : (l.drop n).length ≤ fuel := by simp; omega
        rw [List.dropLast_cons_of_ne_nil (chunksOfAux_ne_nil hrest hn hlen)] at hc
        rcases List.mem_cons.mp hc with rfl | hmem
        · have hlong : n ≤ l.length := by
            by_contra hshort
            exact hrest (List.drop_eq_nil_of_le (by omega))
          simp [hlong]
        · exact ih (l.drop n) hlen c hmem

theorem chunksOf_flatten {α : Type} (n : ℕ) (hn : n ≠ 0) (l : List α) :
    (chunksOf n l).flatten = l :=
  chunksOfAux_flatten n hn l.length l le_rfl

theorem chunksOf_sizes {α : Type} (n : ℕ) (l : List α) :
    ∀ c ∈ chunksOf n l, c ≠ [] ∧ c.length ≤ n :=
  chunksOfAux_sizes n l.length l

theorem chunksOf_dropLast {α : Type} (n : ℕ) (hn : n ≠ 0) (l : List α) :
    ∀ c ∈ (chunksOf n l).dropLast, c.length = n :=
  chunksOfAux_dropLast n hn l.length l le_rfl

/-!
## Ranker membership lemmas
-/

theorem insertDesc_mem {x : MeterMatch} {l : List MeterMatch} {a : MeterMatch}
    (h : a ∈ insertDesc x l) : a = x ∨ a ∈ l := by
  induction l with
  | nil => simpa [insertDesc] using h
  | cons y ys ih =>
    unfold insertDesc at h
    split at h
    · rcases List.mem_cons.mp h with rfl | hm
      · exact Or.inl rfl
      · exact Or.inr hm
    · rcases List.mem_cons.mp h with rfl | hm
      · exact Or.inr (List.mem_cons_self _ _)
      · rcases ih hm with rfl | hm'
        · exact Or.inl rfl
        · exact Or.inr (List.mem_cons_of_mem _ hm')

theorem sortDesc_mem {l : List MeterMatch} {a : MeterMatch}
    (h : a ∈ sortDesc l) : a ∈ l := by
  induction l with
  | nil => simp [sortDesc] at h
  | cons x xs ih =>
    have hx : a ∈ insertDesc x (sortDesc xs) := h
    rcases insertDesc_mem hx with rfl | hm
    · exact List.mem_cons_self _ _
    · exact List.mem_cons_of_mem _ (ih hm)

/-- Models converted from validated rankings are candidate models. -/
theorem convert_ai_rankings_models
    (specOracle : List Str → Str → List (Str × Str))
    (rankings : List AiRanking) (candidates : List Candidate)
    (req : MeterRequirement) :
    ∀ m ∈ convert_ai_rankings specOracle rankings candidates req,
      m.model_number ∈ candidates.map (fun c => c.ModelNumber) := by
  intro m hm
  obtain ⟨rk, _hrk, hsome⟩ := List.mem_filterMap.mp hm
  unfold candLookup at hsome
  cases hfind : candidates.reverse.find? (fun c => c.ModelNumber == rk.model.getD []) with
  | none => rw [hfind] at hsome; simp at hsome
  | some mi =>
    rw [hfind] at hsome
    have hmem : mi ∈ candidates := List.mem_reverse.mp (List.mem_of_find?_eq_some hfind)
    have hbeq := List.find?_some hfind
    have heq : mi.ModelNumber = rk.model.getD [] := eq_of_beq hbeq
    have hmodel : m.model_number = rk.model.getD [] := by
      cases hsome
      rfl
    rw [hmodel, ← heq]
    exact List.mem_map_of_mem _ hmem

/-- Emergency-selected models are candidate models. -/
theorem emergencySelection_models (candidates : List Candidate)
    (req : MeterRequirement) :
    ∀ m ∈ emergencySelection candidates req,
      m.model_number ∈ candidates.map (fun c => c.ModelNumber) := by
  intro m hm
  unfold emergencySelection at hm
  obtain ⟨c, hc, rfl⟩ := List.mem_map.mp hm
  obtain ⟨g, hg, hhead⟩ := List.mem_filterMap.mp hc
  have hcg : c ∈ g := List.mem_of_mem_head? hhead
  have hfilters : ∃ p, g = candidates.filter p := by
    by_cases h1 : costSensitive req = true
    · rw [if_pos h1] at hg
      fin_cases hg <;> exact ⟨_, rfl⟩
    · rw [if_neg h1] at hg
      by_cases h2 : highEnd req = true
      · rw [if_pos h2] at hg
        fin_cases hg <;> exact ⟨_, rfl⟩
      · rw [if_neg h2] at hg
        fin_cases hg <;> exact ⟨_, rfl⟩
  obtain ⟨p, rfl⟩ := hfilters
  exact List.mem_map_of_mem _ (List.mem_of_mem_filter hcg)

/-- Every model `_ai_rank_meters` returns is a candidate model. -/
theorem ai_rank_meters_models (aiRank : Option (List AiRanking))
    (specOracle : List Str → Str → List (Str × Str))
    (candidates : List Candidate) (req : MeterRequirement) :
    ∀ m ∈ ai_rank_meters aiRank specOracle candidates req,
      m.model_number ∈ candidates.map (fun c => c.ModelNumber) := by
  intro m hm
  unfold ai_rank_meters at hm
  cases aiRank with
  | none => exact emergencySelection_models candidates req m hm
  | some rankings =>
    simp only at hm
    split at hm
    · exact convert_ai_rankings_models specOracle rankings candidates req m hm
    · split at hm
      · exact emergencySelection_models candidates req m hm
      · exact convert_ai_rankings_models specOracle _ candidates req m hm

/-- Every model the knowledge-base path returns passed
`_verify_model_exists`. -/
theorem kb_fallback_selection_models
    (kbOracle : Option (Option (List KbMatchInfo))) (dbModels : List Str)
    (req : MeterRequirement) (ms : List MeterMatch)
    (h : kb_fallback_selection kbOracle dbModels req = some ms) :
    ∀ m ∈ ms, verify_model_exists dbModels none m.model_number = true := by
  intro m hm
  unfold kb_fallback_selection at h
  rcases kbOracle with _ | mtsOpt
  · cases h
    simp at hm
  · rcases mtsOpt with _ | mts
    · simp at h
    · simp only at h
      split at h
      · simp at h
      · cases h
        obtain ⟨mt, hmt, rfl⟩ := List.mem_map.mp hm
        exact (List.mem_filter.mp hmt).2

/-- The per-match adjustments keep the model number. -/
theorem scoreAdjustSingle_model (cost highe : Bool) (m : MeterMatch) :
    (scoreAdjustSingle cost highe m).model_number = m.model_number := by
  unfold scoreAdjustSingle
  dsimp only
  repeat' split
  all_goals rfl

theorem scoreAdjustBasic_model (cost : Bool) (m : MeterMatch) :
    (scoreAdjustBasic cost m).model_number = m.model_number := by
  unfold scoreAdjustBasic
  dsimp only
  repeat' split
  all_goals rfl

/-- A re-ranked entry carries the model number of a combined match. -/
theorem applyRerank_models {all : List MeterMatch} {ri : RerankInfo}
    {m : MeterMatch} (h : applyRerank all ri = some m) :
    ∃ m0 ∈ all, m.model_number = m0.model_number := by
  unfold applyRerank at h
  split at h
  · cases hget : all.get? ri.index.toNat with
    | none => rw [hget] at h; simp at h
    | some m0 =>
      rw [hget] at h
      refine ⟨m0, List.get?_mem hget, ?_⟩
      cases h
      rfl
  · simp at h

/-- Combination never introduces a model number absent from its inputs. -/
theorem combine_and_rank_models (db_matches kb_matches : List MeterMatch)
    (rerankOracle : Option (Option (List RerankInfo))) (req : MeterRequirement) :
    ∀ m ∈ combine_and_rank db_matches kb_matches rerankOracle req,
      m.model_number ∈ (db_matches ++ kb_matches).map (fun x => x.model_number) := by
  intro m hm
  unfold combine_and_rank at hm
  dsimp only at hm
  by_cases hemp : (db_matches ++ kb_matches).isEmpty = true
  · rw [if_pos hemp] at hm
    simp at hm
  · rw [if_neg hemp] at hm
    by_cases hsingle : (db_matches.isEmpty || kb_matches.isEmpty) = true
    · rw [if_pos hsingle] at hm
      obtain ⟨m0, hm0, rfl⟩ := List.mem_map.mp (sortDesc_mem hm)
      rw [scoreAdjustSingle_model]
      exact List.mem_map_of_mem _ hm0
    · rw [if_neg hsingle] at hm
      rcases rerankOracle with _ | rankingOpt
      · exact List.mem_map_of_mem _ (sortDesc_mem hm)
      · rcases rankingOpt with _ | ranking
        · obtain ⟨m0, hm0, rfl⟩ := List.mem_map.mp (sortDesc_mem hm)
          rw [scoreAdjustBasic_model]
          exact List.mem_map_of_mem _ hm0
        · rcases List.mem_append.mp hm with hfin | hrem
          · obtain ⟨ri, _hri, hsome⟩ := List.mem_filterMap.mp hfin
            obtain ⟨m0, hm0, heq⟩ := applyRerank_models hsome
            rw [heq]
            exact List.mem_map_of_mem _ hm0
          · obtain ⟨i, _hi, hsome⟩ := List.mem_filterMap.mp hrem
            split at hsome
            · simp at hsome
            · exact List.mem_map_of_mem _ (List.get?_mem hsome)

/-- `filterMap` keeps exactly the entries the function succeeds on. -/
theorem filterMap_length_filter {α β : Type} (f : α → Option β) (l : List α) :
    (l.filterMap f).length = (l.filter (fun x => (f x).isSome)).length := by
  induction l with
  | nil => rfl
  | cons x xs ih =>
    cases hf : f x <;>
      simp [List.filterMap_cons, hf, List.filter_cons, ih]

/-!
## The claims
-/

/-- C1: for every compliance item in a report returned by the correction
pass whose requirement text and spec_value text both contain an
accuracy-class token (or both contain a percentage token) with the meter's
numeric value ≤ the requirement's numeric value, the deterministic
post-processing yields `complies = true` for that item, even if the raw
reasoning-service output marked it false. -/
theorem claim1_accuracy_pairs_forced_compliant
    (r r' : CResult) (it : CItem)
    (hpp : post_process_compliance_logic r = some r')
    (hit : it ∈ r'.compliance_analysis)
    (hcond :
      (∃ rw rg sw sg rv sv,
        searchClass (lowerStr it.reqGet) = some (rw, rg) ∧
        searchClass (lowerStr it.specGet) = some (sw, sg) ∧
        parseDec? rg = some rv ∧ parseDec? sg = some sv ∧
        DecVal.toRat sv ≤ DecVal.toRat rv) ∨
      (∃ rv sv,
        searchPct (lowerStr it.reqGet) = some rv ∧
        searchPct (lowerStr it.specGet) = some sv ∧
        DecVal.toRat sv ≤ DecVal.toRat rv)) :
    it.compliesGet = true := by
  obtain ⟨outs, houts, hana⟩ := post_process_analysis hpp
  rw [hana] at hit
  obtain ⟨o, ho, rfl⟩ := List.mem_map.mp hit
  obtain ⟨it0, _hit0, hproc⟩ := processItems_mem houts ho
  obtain ⟨hreq, hspec, _⟩ := processItem_shape hproc
  have hreqG : o.1.reqGet = it0.reqGet := by unfold CItem.reqGet; rw [hreq]
  have hspecG : o.1.specGet = it0.specGet := by unfold CItem.specGet; rw [hspec]
  apply processItem_forced hproc
  rcases hcond with ⟨rqw, rg, sw, sg, rv, sv, h1, h2, h3, h4, h5⟩ |
      ⟨rv, sv, h1, h2, h3⟩
  · refine Or.inl ⟨rqw, rg, sw, sg, rv, sv, ?_, ?_, h3, h4, (valLE_iff sv rv).mpr h5⟩
    · rw [← hreqG]; exact h1
    · rw [← hspecG]; exact h2
  · refine Or.inr ⟨rv, sv, ?_, ?_, (valLE_iff sv rv).mpr h3⟩
    · rw [← hreqG]; exact h1
    · rw [← hspecG]; exact h2

theorem claim1_witness :
    (exClassOut.compliance_analysis.headI).compliesGet = true :=
  claim1_accuracy_pairs_forced_compliant exClassReport exClassOut
    (exClassOut.compliance_analysis.headI)
    (by decide) (by decide)
    (Or.inl ⟨strLit "class 0.5s", strLit "0.5", strLit "class 0.2s", strLit "0.2",
      ⟨5, 1⟩, ⟨2, 1⟩, by decide, by decide, by decide, by decide,
      (valLE_iff ⟨2, 1⟩ ⟨5, 1⟩).mp (by decide)⟩)

/-- C2 counterexample: a report returned by the correction pass whose
`compliance_analysis` is non-empty but whose `overall_compliance` (True,
straight from the raw reasoning output) is not the 0.8-fraction predicate
(its single item does not comply, so the fraction is 0): when no
correction fires the field is not recomputed. -/
theorem claim2_counterexample :
    post_process_compliance_logic exRawTrueReport = some exRawTrueReport ∧
    exRawTrueReport.compliance_analysis ≠ [] ∧
    exRawTrueReport.overall_compliance = true ∧
    ¬ ((4 : ℚ) / 5 ≤ (compliantCount exRawTrueReport.compliance_analysis : ℚ) /
        (exRawTrueReport.compliance_analysis.length : ℚ)) := by
  refine ⟨by decide, by decide, by decide, ?_⟩
  have h0 : compliantCount exRawTrueReport.compliance_analysis = 0 := by decide
  have h1 : exRawTrueReport.compliance_analysis.length = 1 := by decide
  rw [h0, h1]
  norm_num

/-- C2 (amended): `overall_compliance` equals the 0.8-fraction predicate
whenever the correction pass fired at least one correction; when no
correction fired, the raw `overall_compliance` of the parsed response is
returned unchanged. -/
theorem claim2_overall_threshold_after_corrections
    (r r' : CResult)
    (hpp : post_process_compliance_logic r = some r')
    (hne : r'.compliance_analysis ≠ []) :
    (0 < correctedCount r →
      (r'.overall_compliance = true ↔
        (4 : ℚ) / 5 ≤ (compliantCount r'.compliance_analysis : ℚ) /
          (r'.compliance_analysis.length : ℚ))) ∧
    (correctedCount r = 0 → r'.overall_compliance = r.overall_compliance) := by
  have h := post_process_overall hpp
  constructor
  · intro hpos
    rw [h.1 hpos]
    exact overallThreshold_iff _ (by simpa using hne)
  · exact h.2

theorem claim2_witness :
    0 < correctedCount exClassReport ∧
    (exClassOut.overall_compliance = true ↔
      (4 : ℚ) / 5 ≤ (compliantCount exClassOut.compliance_analysis : ℚ) /
        (exClassOut.compliance_analysis.length : ℚ)) :=
  ⟨by decide,
    (claim2_overall_threshold_after_corrections exClassReport exClassOut
      (by decide) (by decide)).1 (by decide)⟩

/-- C10: the correction pass is monotone on verdicts: the returned report
has one item per input item, and any item whose `complies` was `true`
before the pass is still `true` in the returned report — corrections only
flip `false` to `true`, never `true` to `false`. -/
theorem claim10_postprocess_monotone
    (r r' : CResult)
    (hpp : post_process_compliance_logic r = some r') :
    r'.compliance_analysis.length = r.compliance_analysis.length ∧
    ∀ i (hi : i < r.compliance_analysis.length)
        (hi' : i < r'.compliance_analysis.length),
      (r.compliance_analysis.get ⟨i, hi⟩).compliesGet = true →
      (r'.compliance_analysis.get ⟨i, hi'⟩).compliesGet = true := by
  obtain ⟨outs, houts, hana⟩ := post_process_analysis hpp
  obtain ⟨hlen, hget⟩ := processItems_get houts
  have hlen' : r'.compliance_analysis.length = r.compliance_analysis.length := by
    rw [hana]
    simpa using hlen
  refine ⟨hlen', ?_⟩
  intro i hi hi' hc
  have hio : i < outs.length := by omega
  have hp := hget i hi hio
  have hmono := (processItem_shape hp).2.2 hc
  have hgetm : r'.compliance_analysis.get ⟨i, hi'⟩ = (outs.get ⟨i, hio⟩).1 := by
    simp only [hana, List.get_eq_getElem, List.getElem_map]
  rw [hgetm]
  exact hmono

theorem claim10_witness :
    (exMonoOut.compliance_analysis.get ⟨0, by decide⟩).compliesGet = true :=
  (claim10_postprocess_monotone exMonoReport exMonoOut (by decide)).2
    0 (by decide) (by decide) (by decide)

/-- C3: with more than 10 specification strings, the comparator splits the
list into chunks of 10 (chunks concatenate back to the input, every chunk
except possibly the last has exactly 10 elements, every chunk is non-empty
and no larger than 10), sends each chunk to its own reasoning call, keeps
the per-chunk `compliance_analysis` arrays concatenated in chunk order,
and recomputes the aggregate `overall_compliance` over the concatenated
items; with 10 or fewer strings it runs one single-batch reasoning call. -/
theorem claim3_chunking
    (oracle : List Str → Option CResult) (requirements : List Str)
    (meter_specs : List (Str × Str)) (model_number : Str)
    (hreq : requirements ≠ []) (hspec : meter_specs ≠ []) :
    (10 < requirements.length →
      compare_requirements_with_specs oracle requirements meter_specs model_number =
        .ok (compare_requirements_chunked oracle requirements 10) ∧
      (compare_requirements_chunked oracle requirements 10).compliance_analysis =
        (((chunksOf 10 requirements).filterMap oracle).map
          (fun cr => cr.compliance_analysis)).flatten ∧
      (compare_requirements_chunked oracle requirements 10).overall_compliance =
        overallThreshold
          ((compare_requirements_chunked oracle requirements 10).compliance_analysis) ∧
      (chunksOf 10 requirements).flatten = requirements ∧
      (∀ c ∈ (chunksOf 10 requirements).dropLast, c.length = 10) ∧
      (∀ c ∈ chunksOf 10 requirements, c ≠ [] ∧ c.length ≤ 10)) ∧
    (requirements.length ≤ 10 →
      compare_requirements_with_specs oracle requirements meter_specs model_number =
        (match oracle requirements with
         | none => CompareOutcome.err (strLit "AI comparison failed")
         | some raw =>
           match post_process_compliance_logic raw with
           | none => CompareOutcome.err (strLit "AI comparison failed")
           | some r => CompareOutcome.ok r)) := by
  have hre : ¬ requirements.isEmpty = true := by simp [hreq]
  have hsp : ¬ meter_specs.isEmpty = true := by simp [hspec]
  constructor
  · intro hlen
    refine ⟨?_, rfl, rfl, chunksOf_flatten 10 (by norm_num) requirements,
      chunksOf_dropLast 10 (by norm_num) requirements,
      chunksOf_sizes 10 requirements⟩
    unfold compare_requirements_with_specs
    rw [if_neg hre, if_neg hsp, if_pos hlen]
  · intro hlen
    unfold compare_requirements_with_specs
    rw [if_neg hre, if_neg hsp, if_neg (by omega)]

theorem claim3_witness :
    compare_requirements_with_specs exOracle exReqs11 exSpecsPairs (strLit "PM5560") =
      .ok (compare_requirements_chunked exOracle exReqs11 10) ∧
    (chunksOf 10 exReqs11).flatten = exReqs11 ∧
    (∀ c ∈ (chunksOf 10 exReqs11).dropLast, c.length = 10) :=
  ⟨((claim3_chunking exOracle exReqs11 exSpecsPairs (strLit "PM5560")
      (by decide) (by decide)).1 (by decide)).1,
   ((claim3_chunking exOracle exReqs11 exSpecsPairs (strLit "PM5560")
      (by decide) (by decide)).1 (by decide)).2.2.2.1,
   ((claim3_chunking exOracle exReqs11 exSpecsPairs (strLit "PM5560")
      (by decide) (by decide)).1 (by decide)).2.2.2.2.1⟩

/-- C6: calling the comparator with an empty specifications list or an
empty meter-specification mapping yields an explicit error record rather
than an empty-but-successful report. -/
theorem claim6_empty_inputs_error
    (oracle : List Str → Option CResult) (requirements : List Str)
    (meter_specs : List (Str × Str)) (model_number : Str)
    (h : requirements = [] ∨ meter_specs = []) :
    ∃ msg, compare_requirements_with_specs oracle requirements meter_specs
      model_number = .err msg := by
  rcases h with rfl | rfl
  · refine ⟨strLit "No requirements to analyze", ?_⟩
    rfl
  · by_cases hreqe : requirements.isEmpty = true
    · refine ⟨strLit "No requirements to analyze", ?_⟩
      unfold compare_requirements_with_specs
      rw [if_pos hreqe]
    · refine ⟨strLit "No specifications found for " ++ model_number, ?_⟩
      unfold compare_requirements_with_specs
      rw [if_neg hreqe]
      simp

theorem claim6_witness :
    ∃ msg, compare_requirements_with_specs exOracle [] exSpecsPairs
      (strLit "PM5560") = .err msg :=
  claim6_empty_inputs_error exOracle [] exSpecsPairs (strLit "PM5560") (Or.inl rfl)

/-- C7: the family-stem regex `([A-Za-z]+\d+)` is greedy over the digits,
so `"PM5350"` yields the stem `"PM5350"` — not the documented `"PM5"` —
and the series key becomes `"PM5350000_Series"`: the family lookup misses
`"PM5000_Series"` even when that record exists (with variants), and
`find` falls through to `{}` for this knowledge base, contradicting the
`'PM5' from 'PM5350'` behaviour the code's own comments (comparison.py:129,
137) and the spec describe. -/
theorem claim7_family_stem_divergence :
    familyStem (strLit "PM5350") = some (strLit "PM5350") ∧
    familyStem (strLit "PM5350") ≠ some (strLit "PM5") ∧
    seriesKeyOf (strLit "PM5350") = strLit "PM5350000_Series" ∧
    kbFind exKb (strLit "PM5000_Series") = some exPm5Series ∧
    find_meter_specs exKb (strLit "PM5350") = .empty := by
  refine ⟨by decide, by decide, by decide, by decide, by decide⟩

/-- C8: when no stage of `_find_meter_specs` matches (the `PM8` branch
finds nothing, the derived series key is absent or the stem regex fails,
the `iEM` branch finds nothing, and no variant name contains the model),
the function returns the empty mapping; it is total, so no lookup raises. -/
theorem claim8_no_match_returns_empty
    (kb : KnowledgeBase) (m : Str)
    (h1 : pm8Stage kb m = none)
    (h2 : familyStage kb m = none ∨ familyStage kb m = some .empty)
    (h3 : iemStage kb m = none)
    (h4 : lastResortStage kb m = none) :
    find_meter_specs kb m = .empty := by
  unfold find_meter_specs
  rw [h1]
  rcases h2 with h2 | h2
  · rw [h2, h3, h4]
  · rw [h2]

theorem claim8_witness :
    find_meter_specs exKb (strLit "ZZZ9999") = .empty :=
  claim8_no_match_returns_empty exKb (strLit "ZZZ9999")
    (by decide) (Or.inl (by decide)) (by decide) (by decide)

/-- C5 counterexample: the ranker returns model `"PM21xx"`, which is in
neither the (here empty) candidate pool nor the allow-list:
`_verify_model_exists` also accepts any model ending in `xx` whose stem
extends to an allow-list entry, so `set(returned) ⊆ set(pool ∪ allowlist)`
fails. -/
theorem claim5_counterexample :
    search_meters none exSpecOracle (some (some [exWildInfo])) none [] []
      exPlainReq = some [exWildMatch] ∧
    exWildMatch.model_number ∉ ([] : List Candidate).map (fun c => c.ModelNumber) ∧
    exWildMatch.model_number ∉ validModels :=
  ⟨by decide, by decide, by decide⟩

/-- C5 (amended): every ranked match the ranker returns has a model number
that is in the supplied candidate pool or accepted by
`_verify_model_exists` (product-database membership, the allow-list, or an
`xx` series wildcard whose stem extends to an allow-list model); any other
model the reasoning service invents is discarded before results are
returned, and if the primary ranking call returns only invented models the
ranker falls back instead of keeping any of them. -/
theorem claim5_validated_models
    (aiRank : Option (List AiRanking))
    (specOracle : List Str → Str → List (Str × Str))
    (kbOracle : Option (Option (List KbMatchInfo)))
    (rerankOracle : Option (Option (List RerankInfo)))
    (dbModels : List Str) (candidates : List Candidate)
    (req : MeterRequirement) (ms : List MeterMatch)
    (hrun : search_meters aiRank specOracle kbOracle rerankOracle dbModels
      candidates req = some ms) :
    (∀ m ∈ ms, m.model_number ∈ candidates.map (fun c => c.ModelNumber) ∨
      verify_model_exists dbModels none m.model_number = true) ∧
    (∀ rankings, aiRank = some rankings → rankings ≠ [] →
      (∀ rk ∈ rankings, rk.model.getD [] ∉ candidates.map (fun c => c.ModelNumber)) →
      ai_rank_meters aiRank specOracle candidates req =
        fallback_ranking candidates req) := by
  constructor
  · intro m hm
    unfold search_meters at hrun
    dsimp only at hrun
    cases hkb : kb_fallback_selection kbOracle dbModels req with
    | none => rw [hkb] at hrun; simp at hrun
    | some kbms =>
      rw [hkb] at hrun
      have hms : ms = (combine_and_rank
          (if candidates.isEmpty = true then []
           else ai_rank_meters aiRank specOracle candidates req)
          kbms rerankOracle req).take 5 := (Option.some_inj.mp hrun).symm
      rw [hms] at hm
      have hcomb := combine_and_rank_models
        (if candidates.isEmpty = true then []
         else ai_rank_meters aiRank specOracle candidates req)
        kbms rerankOracle req m (List.mem_of_mem_take hm)
      rw [List.map_append] at hcomb
      rcases List.mem_append.mp hcomb with hdb | hkbm
      · obtain ⟨m0, hm0, heq⟩ := List.mem_map.mp hdb
        by_cases hc : candidates.isEmpty = true
        · rw [if_pos hc] at hm0
          simp at hm0
        · rw [if_neg hc] at hm0
          exact Or.inl (heq ▸ ai_rank_meters_models aiRank specOracle candidates req m0 hm0)
      · obtain ⟨m0, hm0, heq⟩ := List.mem_map.mp hkbm
        exact Or.inr (heq ▸ kb_fallback_selection_models kbOracle dbModels req kbms hkb m0 hm0)
  · intro rankings hr hne hall
    subst hr
    unfold ai_rank_meters
    have hvalid : rankings.filter (fun rk =>
        candidates.any (fun c => c.ModelNumber == rk.model.getD [])) = [] := by
      rw [List.filter_eq_nil_iff]
      intro rk hrk hany
      obtain ⟨c, hc, hbeq⟩ := List.any_eq_true.mp hany
      exact hall rk hrk (eq_of_beq hbeq ▸ List.mem_map_of_mem _ hc)
    have hinvalid : rankings.filter (fun rk =>
        ¬ candidates.any (fun c => c.ModelNumber == rk.model.getD [])) = rankings := by
      rw [List.filter_eq_self]
      intro rk hrk
      rw [decide_eq_true_iff]
      intro hany
      obtain ⟨c, hc, hbeq⟩ := List.any_eq_true.mp hany
      exact hall rk hrk (eq_of_beq hbeq ▸ List.mem_map_of_mem _ hc)
    dsimp only
    rw [hvalid, hinvalid, if_neg (by simp [hne])]
    simp

theorem claim5_witness :
    (exRankerOut.headI).model_number ∈ exCands.map (fun c => c.ModelNumber) ∨
      verify_model_exists [] none (exRankerOut.headI).model_number = true :=
  (claim5_validated_models (some exAiRankings) exSpecOracle none none [] exCands
    exPlainReq exRankerOut (by decide)).1 exRankerOut.headI (by decide)

/-- C9 counterexample: a section whose reasoning call parses successfully
but extracts zero specifications still yields a `RequirementRecord`, with
an empty `specifications` list, in the extractor's output — the `if req:`
filter only drops the `None` of a failed parse. -/
theorem claim9_counterexample :
    (extract_meter_requirements exParseOracle exDoc [strLit "6.5"]).map
      (fun r => r.specifications) = [[]] := by decide

/-- C9 (amended): the extractor keeps exactly the sliced sections whose
reasoning call produced a parseable structure — a section is excluded only
when its parse fails, and every output record comes from a parsed section
(a successfully parsed section with zero specifications is still kept,
with an empty specifications list). -/
theorem claim9_sections_kept_iff_parse_succeeds
    (oracle : DocSection → Option ParsePayload) (text : Str)
    (manual_clauses : List Str) :
    (extract_meter_requirements oracle text manual_clauses).length =
      ((buildSections (splitLines text)
        (clausePositions text manual_clauses)).filter
        (fun sec => (oracle sec).isSome)).length ∧
    ∀ r ∈ extract_meter_requirements oracle text manual_clauses,
      ∃ sec ∈ buildSections (splitLines text) (clausePositions text manual_clauses),
        parse_meter_section oracle sec = some r := by
  constructor
  · rw [extract_meter_requirements, filterMap_length_filter]
    congr 1
    apply List.filter_congr
    intro sec _
    unfold parse_meter_section
    cases oracle sec <;> rfl
  · intro r hr
    obtain ⟨sec, hsec, hp⟩ := List.mem_filterMap.mp hr
    exact ⟨sec, hsec, hp⟩

theorem claim9_witness :
    ∃ sec ∈ buildSections (splitLines exDoc) (clausePositions exDoc [strLit "6.5"]),
      parse_meter_section exParseOracle sec = some exExtracted :=
  (claim9_sections_kept_iff_parse_succeeds exParseOracle exDoc
    [strLit "6.5"]).2 exExtracted (by decide)

/-- C4 counterexample: `_extract_and_repair_json` has no initial direct
parse of the full response.  On a valid JSON response whose nesting depth
exceeds the depth-2 brace-block regex, the claimed order (direct parse
first) would return the full object — which carries the
`compliance_analysis` key — while the code returns an inner sub-object
that does not. -/
theorem claim4_counterexample :
    jsonParse exDeepJson = some exDeepVal ∧
    extract_and_repair_json exDeepJson = exInnerVal ∧
    jLookup exDeepVal (strLit "compliance_analysis") = some (JValue.jarr []) ∧
    jLookup exInnerVal (strLit "compliance_analysis") = none :=
  ⟨rfl, rfl, rfl, rfl⟩

/-- C4 (amended): the extraction attempts, in this order: (1) regex
extraction of balanced-brace blocks tried longest-first, (2) aggressive
cleanup (quote unquoted keys, single to double quotes, normalize
booleans, strip trailing commas) followed by reparse, (3) manual
field-by-field regex extraction of requirement/spec_value/complies/
justification tuples, and (4) a final fallback whose compliance_analysis
is empty and whose potential_issues notes that the response could not be
parsed — so a fully failed extraction fabricates no verdicts. -/
theorem claim4_extraction_cascade (t : Str) :
    (∀ v, stageRegex t = some v → extract_and_repair_json t = v) ∧
    (stageRegex t = none → ∀ v, stageCleanup t = some v →
      extract_and_repair_json t = v) ∧
    (stageRegex t = none → stageCleanup t = none →
      ∀ v, stageManualJ t = some v → extract_and_repair_json t = v) ∧
    (stageRegex t = none → stageCleanup t = none → stageManualJ t = none →
      extract_and_repair_json t = fallbackJ ∧
      jLookup fallbackJ (strLit "compliance_analysis") = some (JValue.jarr []) ∧
      jLookup fallbackJ (strLit "potential_issues") = some (JValue.jarr
        [JValue.jstr
          (strLit "Could not parse AI response due to JSON formatting errors")])) := by
  refine ⟨?_, ?_, ?_, ?_⟩
  · intro v hv
    unfold extract_and_repair_json
    rw [hv]
  · intro h1 v hv
    unfold extract_and_repair_json
    rw [h1, hv]
  · intro h1 h2 v hv
    unfold extract_and_repair_json
    rw [h1, h2, hv]
  · intro h1 h2 h3
    unfold extract_and_repair_json
    rw [h1, h2, h3]
    exact ⟨rfl, rfl, rfl⟩

theorem claim4_witness :
    extract_and_repair_json exFlatJson = exFlatVal :=
  (claim4_extraction_cascade exFlatJson).1 exFlatVal rfl

end ComplianceAutomation
